import Mathlib

/-!
Verification development for the volume-performance-testing repository.

The Python modules under study are embedded shallowly:

* fio_test.py            — FIOTestRunner: matrix generation, command synthesis,
                           execution with timeout fallback, JSON/text output parsing
* tools/check_fio_product.py — the iodepth × numjobs product validation pass
* tools/aggregate.py     — aggregate_cases: cross-host case merging
* tools/compare.py       — compare_cases: baseline/current differential comparison

Floats are modelled as rationals.  Python strings are modelled as Lean strings,
with the handful of Python string primitives used by the code (split, strip,
replace, lower, substring containment, float and int conversion) re-implemented
structurally over the character list so that concrete runs reduce inside Lean.
Subprocess execution, wall-clock time and the filesystem are abstracted into an
explicit environment (ExecBehavior below); everything downstream of the captured
process output is translated from the source.
-/

/-! ## Python string primitives -/

def strOf (l : List Char) : String := ⟨l⟩

/-- Python needle in hay (substring containment). -/
def containsSub (needle : List Char) : List Char → Bool
  | [] => needle.isEmpty
  | c :: cs => needle.isPrefixOf (c :: cs) || containsSub needle cs

/-- Python sub in s for strings. -/
def pyIn (needle hay : String) : Bool := containsSub needle.data hay.data

/-- Python s.startswith(p). -/
def pyStartsWith (s p : String) : Bool := p.data.isPrefixOf s.data

/-- Fuelled worker for str.split(sep); one unit of fuel per consumed character. -/
def splitSepAux (sep : List Char) : ℕ → List Char → List Char → List (List Char)
  | 0, rest, acc => [acc.reverse ++ rest]
  | _ + 1, [], acc => [acc.reverse]
  | fuel + 1, c :: cs, acc =>
    if sep.isPrefixOf (c :: cs) then
      acc.reverse :: splitSepAux sep fuel (List.drop (sep.length - 1) cs) []
    else
      splitSepAux sep fuel cs (c :: acc)

/-- Python s.split(sep) for a non-empty separator (the only way the code calls it). -/
def pySplit (s sep : String) : List String :=
  if sep.data.isEmpty then [s]
  else (splitSepAux sep.data (s.data.length + 1) s.data []).map strOf

/-- Whitespace characters recognised by str.strip(). -/
def pyIsSpace (c : Char) : Bool :=
  c = ' ' || c = '\t' || c = '\n' || c = '\r' || c = '\x0b' || c = '\x0c'

/-- Python s.strip(). -/
def pyStrip (s : String) : String :=
  strOf (((s.data.dropWhile pyIsSpace).reverse.dropWhile pyIsSpace).reverse)

/-- Fuelled worker for str.replace (replace every occurrence). -/
def replaceAux (pat done : List Char) : ℕ → List Char → List Char
  | 0, rest => rest
  | _ + 1, [] => []
  | fuel + 1, c :: cs =>
    if pat.isPrefixOf (c :: cs) then
      done ++ replaceAux pat done fuel (List.drop (pat.length - 1) cs)
    else
      c :: replaceAux pat done fuel cs

/-- Python s.replace(pat, rep) for a non-empty pattern. -/
def pyReplace (s pat rep : String) : String :=
  if pat.data.isEmpty then s
  else strOf (replaceAux pat.data rep.data (s.data.length + 1) s.data)

/-- ASCII lower-casing of one character (str.lower restricted to ASCII, which is
all the repository ever feeds it: filesystem names and fio mode strings). -/
def asciiLower (c : Char) : Char :=
  match c with
  | 'A' => 'a' | 'B' => 'b' | 'C' => 'c' | 'D' => 'd' | 'E' => 'e' | 'F' => 'f'
  | 'G' => 'g' | 'H' => 'h' | 'I' => 'i' | 'J' => 'j' | 'K' => 'k' | 'L' => 'l'
  | 'M' => 'm' | 'N' => 'n' | 'O' => 'o' | 'P' => 'p' | 'Q' => 'q' | 'R' => 'r'
  | 'S' => 's' | 'T' => 't' | 'U' => 'u' | 'V' => 'v' | 'W' => 'w' | 'X' => 'x'
  | 'Y' => 'y' | 'Z' => 'z' | other => other

/-- Python s.lower(). -/
def pyLower (s : String) : String := strOf (s.data.map asciiLower)

/-- Decimal digit value of a character. -/
def digitVal (c : Char) : ℕ := c.toNat - 48

def digitsToNat (l : List Char) : ℕ := l.foldl (fun a c => a * 10 + digitVal c) 0

/-- Decimal digit to character, for rendering integers. -/
def digitChar (n : ℕ) : Char :=
  match n with
  | 0 => '0' | 1 => '1' | 2 => '2' | 3 => '3' | 4 => '4'
  | 5 => '5' | 6 => '6' | 7 => '7' | 8 => '8' | _ => '9'

def natToCharsAux : ℕ → ℕ → List Char → List Char
  | 0, _, acc => acc
  | _ + 1, 0, acc => acc
  | fuel + 1, n + 1, acc =>
    natToCharsAux fuel ((n + 1) / 10) (digitChar ((n + 1) % 10) :: acc)

def natToChars (n : ℕ) : List Char := natToCharsAux (n + 1) n []

/-- Python str(i) for an integer, as interpolated by f-strings. -/
def pyStrInt (i : ℤ) : String :=
  match i with
  | .ofNat 0 => "0"
  | .ofNat n => strOf (natToChars n)
  | .negSucc m => strOf ('-' :: natToChars (m + 1))

/-- Exponent part of a float literal, after the e marker: optional sign then digits. -/
def parseExpPart : List Char → Option ℤ
  | [] => none
  | '+' :: ds => if ds ≠ [] ∧ ds.all Char.isDigit then some ((digitsToNat ds : ℤ)) else none
  | '-' :: ds => if ds ≠ [] ∧ ds.all Char.isDigit then some (-(digitsToNat ds : ℤ)) else none
  | ds => if ds.all Char.isDigit then some ((digitsToNat ds : ℤ)) else none

/-- Mantissa of a float literal: digits, optionally with one decimal point,
with at least one digit present. -/
def parseMantissa (l : List Char) : Option ℚ :=
  match l.span Char.isDigit with
  | (ds, rest) =>
    match rest with
    | [] => if ds.isEmpty then none else some ((digitsToNat ds : ℚ))
    | '.' :: fs =>
      if fs.all Char.isDigit ∧ (ds ≠ [] ∨ fs ≠ []) then
        some ((digitsToNat ds : ℚ) + (digitsToNat fs : ℚ) / (10 : ℚ) ^ fs.length)
      else none
    | _ => none

/-- Python float(s): strips whitespace, optional sign, decimal mantissa and
optional exponent; none models the ValueError raised on anything else.
(Python additionally accepts inf, nan and underscore separators; the fio
outputs parsed by the repository never contain those.) -/
def pyFloat (s : String) : Option ℚ :=
  let l0 := (pyStrip s).data
  let signed : ℚ × List Char :=
    match l0 with
    | '+' :: r => (1, r)
    | '-' :: r => (-1, r)
    | r => (1, r)
  let parts : List Char × Option ℤ :=
    match signed.2.span (fun c => !(c == 'e') && !(c == 'E')) with
    | (m, []) => (m, some 0)
    | (m, _ :: e) => (m, parseExpPart e)
  match parseMantissa parts.1, parts.2 with
  | some q, some k =>
    if 0 ≤ k then some (signed.1 * q * (10 : ℚ) ^ k.toNat)
    else some (signed.1 * q / (10 : ℚ) ^ (-k).toNat)
  | _, _ => none

/-- Python int(s) for a string: strips whitespace, optional sign, digits only;
none models the ValueError. -/
def pyIntOfStr (s : String) : Option ℤ :=
  let l0 := (pyStrip s).data
  match l0 with
  | '+' :: ds => if ds ≠ [] ∧ ds.all Char.isDigit then some ((digitsToNat ds : ℤ)) else none
  | '-' :: ds => if ds ≠ [] ∧ ds.all Char.isDigit then some (-(digitsToNat ds : ℤ)) else none
  | ds => if ds ≠ [] ∧ ds.all Char.isDigit then some ((digitsToNat ds : ℤ)) else none

/-! ## JSON values and Python exception kinds -/

/-- A decoded JSON value, as produced by json.loads. -/
inductive JVal where
  | jnull
  | jbool (b : Bool)
  | jnum (q : ℚ)
  | jstr (s : String)
  | jarr (elems : List JVal)
  | jobj (fields : List (String × JVal))

/-- Python truthiness of a JSON-decoded value. -/
def JVal.truthy : JVal → Bool
  | .jnull => false
  | .jbool b => b
  | .jnum q => decide (q ≠ 0)
  | .jstr s => decide (s ≠ "")
  | .jarr l => !l.isEmpty
  | .jobj l => !l.isEmpty

/-- The exception kinds that can arise in the parsing code. -/
inductive PyErr where
  | decodeErr -- json.JSONDecodeError
  | keyErr    -- KeyError
  | typeErr   -- TypeError
  | indexErr  -- IndexError
  | attrErr   -- AttributeError
  | valueErr  -- ValueError
deriving DecidableEq

/-- The exception tuple caught by _parse_fio_json_output:
(json.JSONDecodeError, KeyError, TypeError).  Everything else escapes. -/
def caughtByJsonHandler : PyErr → Bool
  | .decodeErr => true
  | .keyErr => true
  | .typeErr => true
  | _ => false

/-- Message recorded by str(e) when an exception reaches a generic handler;
the exact text is irrelevant to the claims, only that it is non-empty. -/
def errMsg : PyErr → String
  | .decodeErr => "JSONDecodeError"
  | .keyErr => "KeyError"
  | .typeErr => "TypeError"
  | .indexErr => "IndexError"
  | .attrErr => "AttributeError"
  | .valueErr => "ValueError"

/-- Python v.get(k, dflt): succeeds on a dict, raises AttributeError otherwise. -/
def dictGet (v : JVal) (k : String) (dflt : JVal) : Except PyErr JVal :=
  match v with
  | .jobj fields => .ok ((((fields.find? (fun p => p.1 == k))).map Prod.snd).getD dflt)
  | _ => .error .attrErr

/-- Python v[0] as applied to the decoded jobs value (only reached when v is truthy):
first element of a list, first character of a string, KeyError on a dict whose keys
are JSON strings, TypeError on numbers, booleans and null. -/
def index0 (v : JVal) : Except PyErr JVal :=
  match v with
  | .jarr (x :: _) => .ok x
  | .jarr [] => .error .indexErr
  | .jstr s =>
    match s.data with
    | [] => .error .indexErr
    | c :: _ => .ok (.jstr (strOf [c]))
  | .jobj _ => .error .keyErr
  | _ => .error .typeErr

/-- Numeric value of a JSON leaf for use in an arithmetic expression such as
bw / 1024: numbers and booleans are numeric, everything else raises TypeError
immediately (Python semantics of the division). -/
def numForDiv : JVal → Except PyErr ℚ
  | .jnum q => .ok q
  | .jbool b => .ok (if b then 1 else 0)
  | _ => .error .typeErr

/-- Value stored by a bare assignment such as result.read_iops = rd.get(iops, 0).
Python stores the raw value; a non-numeric truthy value then raises ValueError at
the first numeric use (the :.0f format of the success log), which is modelled here
as an immediate ValueError; a non-numeric falsy value (null, empty containers)
behaves like zero in every later truthiness test and is modelled as 0. -/
def numForStore : JVal → Except PyErr ℚ
  | .jnum q => .ok q
  | .jbool b => .ok (if b then 1 else 0)
  | .jnull => .ok 0
  | .jstr s => if s = "" then .ok 0 else .error .valueErr
  | .jarr l => if l.isEmpty then .ok 0 else .error .valueErr
  | .jobj l => if l.isEmpty then .ok 0 else .error .valueErr

/-! ## fio_test.py: TestResult and command synthesis -/

/-- The FIO-relevant fields of common.TestResult (dataclass defaults are the
zero values; duration and timestamp are wall-clock artefacts left out of the
model). -/
structure TestResult where
  test_name : String := ""
  test_type : String := ""
  command : String := ""
  block_size : String := ""
  queue_depth : ℤ := 0
  numjobs : ℤ := 0
  rwmix_read : ℤ := 0
  read_iops : ℚ := 0
  write_iops : ℚ := 0
  read_mbps : ℚ := 0
  write_mbps : ℚ := 0
  read_latency_us : ℚ := 0
  write_latency_us : ℚ := 0
  throughput_mbps : ℚ := 0
  error_message : String := ""
deriving DecidableEq

/-- FIOTestRunner._get_test_name. -/
def get_test_name (test_type : String) (rwmix_read : ℤ) : String :=
  if test_type = "randread" then "随机读"
  else if test_type = "randwrite" then "随机写"
  else if test_type = "randrw" then ("随机读写(") ++ pyStrInt rwmix_read ++ ("%读)")
  else test_type

/-- The backing-file name fio_test_... synthesised per scenario. -/
def fioTestFile (block_size : String) (queue_depth numjobs rwmix_read : ℤ) : String :=
  ("fio_test_") ++ block_size ++ ("_") ++ pyStrInt queue_depth ++ ("_") ++
    pyStrInt numjobs ++ ("_") ++ pyStrInt rwmix_read

/-- The JSON output file name fio_json_....json. -/
def fioOutputFile (block_size : String) (queue_depth numjobs rwmix_read : ℤ) : String :=
  ("fio_json_") ++ block_size ++ ("_") ++ pyStrInt queue_depth ++ ("_") ++
    pyStrInt numjobs ++ ("_") ++ pyStrInt rwmix_read ++ (".json")

/-- The fio command list built in _run_fio_test, including the environment-adaptive
ioengine/direct selection and the conditional --rwmixread argument. -/
def fioCommand (test_type block_size : String) (queue_depth numjobs rwmix_read runtime : ℤ)
    (filesystem : String) : List String :=
  let ioengine : String := if pyLower filesystem = "9p" then "psync" else "libaio"
  let directFlag : String :=
    if pyLower filesystem = "9p" ∧ (test_type = "randread" ∨ test_type = "randrw")
    then "0" else "1"
  (["fio",
    "--name=test",
    ("--filename=") ++ fioTestFile block_size queue_depth numjobs rwmix_read,
    ("--rw=") ++ test_type,
    ("--bs=") ++ block_size,
    ("--iodepth=") ++ pyStrInt queue_depth,
    ("--numjobs=") ++ pyStrInt numjobs,
    ("--runtime=") ++ pyStrInt runtime,
    "--time_based",
    ("--direct=") ++ directFlag,
    ("--ioengine=") ++ ioengine,
    "--group_reporting",
    "--output-format=json",
    "--size=10G",
    ("--output=") ++ fioOutputFile block_size queue_depth numjobs rwmix_read]) ++
  (if test_type = "randrw" then [("--rwmixread=") ++ pyStrInt rwmix_read] else [])

/-- The TestResult constructed at the top of _run_fio_test, with the command
string recorded as in the source (" ".join(fio_command)). -/
def initResult (test_type block_size : String) (queue_depth numjobs rwmix_read runtime : ℤ)
    (filesystem : String) : TestResult :=
  { test_name := ("FIO ") ++ get_test_name test_type rwmix_read ++ (" ") ++ block_size ++
      (" QD") ++ pyStrInt queue_depth ++ (" J") ++ pyStrInt numjobs,
    test_type := test_type,
    block_size := block_size,
    queue_depth := queue_depth,
    numjobs := numjobs,
    rwmix_read := rwmix_read,
    command := String.intercalate (" ")
      (fioCommand test_type block_size queue_depth numjobs rwmix_read runtime filesystem) }

/-! ## fio_test.py: _parse_fio_json_output -/

/-- Bind for the exception-threading parser: an exception escaping a Python
expression is paired with the object state at the moment it was raised. -/
def withState (r : TestResult) (x : Except PyErr α)
    (k : α → Except (PyErr × TestResult) TestResult) : Except (PyErr × TestResult) TestResult :=
  match x with
  | .error e => .error (e, r)
  | .ok a => k a

/-- The read-direction block of _parse_fio_json_output: executed when the read
sub-record is truthy; assigns iops, bw/1024 and lat_ns.mean/1000 in source order. -/
def parseReadSection (job : JVal) (r : TestResult) : Except (PyErr × TestResult) TestResult :=
  withState r (dictGet job ("read") (.jobj [])) fun read_data =>
  if read_data.truthy then
    withState r (dictGet read_data ("iops") (.jnum 0)) fun vIops =>
    withState r (numForStore vIops) fun qIops =>
    let r1 := { r with read_iops := qIops }
    withState r1 (dictGet read_data ("bw") (.jnum 0)) fun vBw =>
    withState r1 (numForDiv vBw) fun qBw =>
    let r2 := { r1 with read_mbps := qBw / 1024 }
    withState r2 (dictGet read_data ("lat_ns") (.jobj [])) fun vLat =>
    withState r2 (dictGet vLat ("mean") (.jnum 0)) fun vMean =>
    withState r2 (numForDiv vMean) fun qMean =>
    .ok { r2 with read_latency_us := qMean / 1000 }
  else .ok r

/-- The write-direction block of _parse_fio_json_output. -/
def parseWriteSection (job : JVal) (r : TestResult) : Except (PyErr × TestResult) TestResult :=
  withState r (dictGet job ("write") (.jobj [])) fun write_data =>
  if write_data.truthy then
    withState r (dictGet write_data ("iops") (.jnum 0)) fun vIops =>
    withState r (numForStore vIops) fun qIops =>
    let r1 := { r with write_iops := qIops }
    withState r1 (dictGet write_data ("bw") (.jnum 0)) fun vBw =>
    withState r1 (numForDiv vBw) fun qBw =>
    let r2 := { r1 with write_mbps := qBw / 1024 }
    withState r2 (dictGet write_data ("lat_ns") (.jobj [])) fun vLat =>
    withState r2 (dictGet vLat ("mean") (.jnum 0)) fun vMean =>
    withState r2 (numForDiv vMean) fun qMean =>
    .ok { r2 with write_latency_us := qMean / 1000 }
  else .ok r

/-- Body of _parse_fio_json_output before its exception handler: none stands for
a json.loads failure on the raw text; the first job of a truthy jobs value is
read, then the read and write sections run and the total throughput is recomputed. -/
def parseFioJsonRaw (input : Option JVal) (result : TestResult) :
    Except (PyErr × TestResult) TestResult :=
  match input with
  | none => .error (.decodeErr, result)
  | some data =>
    withState result (dictGet data ("jobs") (.jarr [])) fun jobs =>
    if ¬ jobs.truthy then .ok result else
    withState result (index0 jobs) fun job =>
    match parseReadSection job result with
    | .error er => .error er
    | .ok r1 =>
      match parseWriteSection job r1 with
      | .error er => .error er
      | .ok r2 => .ok { r2 with throughput_mbps := r2.read_mbps + r2.write_mbps }

/-- FIOTestRunner._parse_fio_json_output: the raw body wrapped in
except (json.JSONDecodeError, KeyError, TypeError), which logs a warning and
returns normally; any other exception escapes with the partially updated result. -/
def parse_fio_json_output (input : Option JVal) (r : TestResult) :
    Except (PyErr × TestResult) TestResult :=
  match parseFioJsonRaw input r with
  | .ok r1 => .ok r1
  | .error (e, r1) => if caughtByJsonHandler e then .ok r1 else .error (e, r1)

/-! ## fio_test.py: _parse_fio_text_output -/

/-- part.split('=')[1].strip(), as applied to a part known to contain an
equals sign. -/
def splitEq1 (part : String) : String := pyStrip ((pySplit part ("=")).getD 1 (""))

/-- The BW= branch shared by the read and write loops: MiB/s is taken as-is,
KiB/s is divided by 1024, any other suffix leaves the current value untouched
(there is no GiB/s branch in the source).  none models a ValueError from float(). -/
def bwToMbps (bw_str : String) (current : ℚ) : Option ℚ :=
  if pyIn ("MiB/s") bw_str then pyFloat (pyReplace bw_str ("MiB/s") (""))
  else if pyIn ("KiB/s") bw_str then (pyFloat (pyReplace bw_str ("KiB/s") (""))).map (fun q => q / 1024)
  else some current

/-- One comma-separated part of a read: line.  An escaping ValueError carries
the state at the throw (the failing assignment has not happened). -/
def readPart (r : TestResult) (part0 : String) : Except TestResult TestResult :=
  let part := pyStrip part0
  if pyIn ("IOPS=") part then
    match pyFloat (splitEq1 part) with
    | some q => .ok { r with read_iops := q }
    | none => .error r
  else if pyIn ("BW=") part then
    match bwToMbps (splitEq1 part) r.read_mbps with
    | some q => .ok { r with read_mbps := q }
    | none => .error r
  else .ok r

/-- One comma-separated part of a write: line. -/
def writePart (r : TestResult) (part0 : String) : Except TestResult TestResult :=
  let part := pyStrip part0
  if pyIn ("IOPS=") part then
    match pyFloat (splitEq1 part) with
    | some q => .ok { r with write_iops := q }
    | none => .error r
  else if pyIn ("BW=") part then
    match bwToMbps (splitEq1 part) r.write_mbps with
    | some q => .ok { r with write_mbps := q }
    | none => .error r
  else .ok r

/-- One line of the text parser: read: lines with an IOPS= token feed the read
loop, otherwise write: lines with an IOPS= token feed the write loop. -/
def lineStep (r : TestResult) (line0 : String) : Except TestResult TestResult :=
  let line := pyStrip line0
  if pyIn ("read:") line && pyIn ("IOPS=") line then
    (pySplit line (",")).foldlM readPart r
  else if pyIn ("write:") line && pyIn ("IOPS=") line then
    (pySplit line (",")).foldlM writePart r
  else .ok r

/-- FIOTestRunner._parse_fio_text_output: the whole loop runs inside
except Exception, so a ValueError keeps the state accumulated before the throw
and skips the final throughput recomputation. -/
def parse_fio_text_output (output : String) (r : TestResult) : TestResult :=
  match (pySplit output ("\n")).foldlM lineStep r with
  | .ok r1 => { r1 with throughput_mbps := r1.read_mbps + r1.write_mbps }
  | .error r1 => r1

/-! ## fio_test.py: _run_fio_test -/

/-- The two views of a process's captured standard output: what json.loads
makes of it (none when it is not valid JSON) and the raw text. -/
structure FioOut where
  jsonView : Option JVal
  textView : String

/-- Outcome of one subprocess.run of fio: normal exit (with the captured output
and, when the fio --output file could be opened, its decoded content — the inner
option is none when the file exists but holds invalid JSON), non-zero exit with
captured stderr, or subprocess.TimeoutExpired. -/
inductive Outcome where
  | success (out : FioOut) (outputFile : Option (Option JVal))
  | failure (stderr : String)
  | timedOut

/-- Environment behaviour for one scenario: the primary invocation's outcome and
the outcome of the fallback invocation (consulted only after a timeout). -/
structure ExecBehavior where
  first : Outcome
  second : Outcome

/-- Lines 274-278 and 310-313: try to parse the JSON output file, and on any
exception (including an unreadable file) parse the captured stdout instead from
the partially updated state; an exception escaping the second parse propagates. -/
def parsePhase (out : FioOut) (outputFile : Option (Option JVal)) (r : TestResult) :
    Except (PyErr × TestResult) TestResult :=
  match outputFile with
  | some j =>
    match parse_fio_json_output j r with
    | .ok r1 => .ok r1
    | .error (_, r1) => parse_fio_json_output out.jsonView r1
  | none => parse_fio_json_output out.jsonView r

/-- The argument substitution applied to build the fallback command: the two
sequential startswith rewrites of lines 296-300. -/
def fallbackSub (arg : String) : String :=
  let a1 := if pyStartsWith arg ("--ioengine=") then "--ioengine=sync" else arg
  if pyStartsWith a1 ("--direct=") then "--direct=0" else a1

/-- FIOTestRunner._run_fio_test.  The success branch parses the JSON output and,
when both iops fields are still falsy, falls back to the text parser; an
exception escaping the JSON parse phase reaches the outer except Exception and
records str(e).  The timeout branch retries once with the substituted command;
its own try block turns any exception — including a second TimeoutExpired and an
escaping parse exception — into the 测试超时 error. -/
def run_fio_test (beh : ExecBehavior) (test_type block_size : String)
    (queue_depth numjobs rwmix_read runtime : ℤ) (filesystem : String) : TestResult :=
  let r0 := initResult test_type block_size queue_depth numjobs rwmix_read runtime filesystem
  match beh.first with
  | .success out outputFile =>
    (match parsePhase out outputFile r0 with
     | .ok r1 =>
       if r1.read_iops ≠ 0 ∨ r1.write_iops ≠ 0 then r1
       else parse_fio_text_output out.textView r1
     | .error (e, r1) => { r1 with error_message := errMsg e })
  | .failure stderr =>
    { r0 with error_message := if stderr = "" then "FIO命令执行失败" else stderr }
  | .timedOut =>
    match beh.second with
    | .success out outputFile =>
      (match parsePhase out outputFile r0 with
       | .ok r1 => { r1 with error_message := "" }
       | .error (_, r1) => { r1 with error_message := "测试超时" })
    | .failure stderr =>
      { r0 with error_message := if stderr = "" then "FIO命令执行失败" else stderr }
    | .timedOut => { r0 with error_message := "测试超时" }

/-- The sequence of subprocess invocations performed by _run_fio_test for a
scenario: the primary command with timeout runtime + 60, and — exactly after a
timeout — the substituted fallback command under the same timeout budget. -/
def fioInvocations (beh : ExecBehavior) (test_type block_size : String)
    (queue_depth numjobs rwmix_read runtime : ℤ) (filesystem : String) :
    List (List String × ℤ) :=
  let cmd := fioCommand test_type block_size queue_depth numjobs rwmix_read runtime filesystem
  (cmd, runtime + 60) ::
    (match beh.first with
     | .timedOut => [(cmd.map fallbackSub, runtime + 60)]
     | _ => [])

/-! ## fio_test.py: FIOTestRunner configuration and matrix generation -/

/-- A scenario loaded from config/core_scenarios.yaml: a flat key/value record
whose values are ints or strings (core_scenarios_loader._parse_value). -/
inductive YVal where
  | yint (n : ℤ)
  | ystr (s : String)
deriving DecidableEq

def CoreScenario : Type := List (String × YVal)

/-- Python sc.get(k, dflt) on a loaded scenario record. -/
def scGet (sc : CoreScenario) (k : String) (dflt : YVal) : YVal :=
  (((sc.find? (fun p => p.1 == k))).map Prod.snd).getD dflt

/-- Python str(v) for a loaded value. -/
def pyStrY : YVal → String
  | .yint n => pyStrInt n
  | .ystr s => s

/-- Python int(v) for a loaded value; none models the ValueError on a
non-numeric string. -/
def pyIntY : YVal → Option ℤ
  | .yint n => some n
  | .ystr s => pyIntOfStr s

/-- The configuration state of a FIOTestRunner instance: the hard-coded axes of
__init__ plus the probed filesystem, the runtime argument and the loaded core
scenarios.  The queue-depth to concurrency mapping is the dict of lines 49-56,
modelled as a function (only configured depths are ever looked up). -/
structure FIOTestRunner where
  block_sizes : List String
  queue_depths : List ℤ
  iodepth_numjobs_mapping : ℤ → List ℤ
  rwmix_ratios : List ℤ
  runtime : ℤ
  filesystem : String
  core_scenarios : List CoreScenario

/-- Line 59: self.total_scenarios, computed with the literal factor 2. -/
def total_scenarios (R : FIOTestRunner) : ℕ :=
  R.block_sizes.length * R.queue_depths.length * 2 * R.rwmix_ratios.length

/-- The shipped iodepth_numjobs_mapping. -/
def shipped_mapping : ℤ → List ℤ
  | 1 => [1, 4]
  | 2 => [1, 4]
  | 4 => [1, 4]
  | 8 => [4, 8]
  | 16 => [4, 8]
  | 32 => [4, 8]
  | _ => []

/-- A runner carrying the shipped configuration matrix of __init__. -/
def shippedRunner (runtime : ℤ) (filesystem : String) (core : List CoreScenario) :
    FIOTestRunner :=
  { block_sizes := [("4k"), ("8k"), ("16k"), ("32k"), ("64k"), ("128k"), ("1m"), ("4m")],
    queue_depths := [1, 2, 4, 8, 16, 32],
    iodepth_numjobs_mapping := shipped_mapping,
    rwmix_ratios := [0, 25, 50, 75, 100],
    runtime := runtime,
    filesystem := filesystem,
    core_scenarios := core }

/-- Lines 88-96: the test type chosen for a swept read-mix percentage. -/
def test_type_for (rwmix_read : ℤ) : String :=
  if rwmix_read = 0 then "randwrite"
  else if rwmix_read = 100 then "randread"
  else "randrw"

/-- The per-scenario execution environment: outcome behaviour as a function of
the scenario parameters handed to _run_fio_test. -/
def BehEnv : Type := String → String → ℤ → ℤ → ℤ → ExecBehavior

/-- One iteration of the loop of _run_core_scenarios: field extraction (whose
int conversions may raise, skipping the scenario) followed by _run_fio_test and
the CORE name prefix.  none models the per-scenario except handler. -/
def runCoreScenario (R : FIOTestRunner) (beh : BehEnv) (sc : CoreScenario) :
    Option TestResult :=
  let rw := pyLower (pyStrY (scGet sc ("rw") (.ystr ("randread"))))
  let bs := pyLower (pyStrY (scGet sc ("bs") (.ystr ("4k"))))
  match pyIntY (scGet sc ("iodepth") (.yint 1)) with
  | none => none
  | some iodepth =>
    match pyIntY (scGet sc ("numjobs") (.yint 1)) with
    | none => none
    | some numjobs =>
      match (if rw = "randrw" then pyIntY (scGet sc ("rwmixread") (.yint 50)) else some 0) with
      | none => none
      | some mix =>
        let res := run_fio_test (beh rw bs iodepth numjobs mix) rw bs iodepth numjobs mix
          R.runtime R.filesystem
        some { res with test_name := ("CORE ") ++ res.test_name }

/-- FIOTestRunner._run_core_scenarios. -/
def run_core_scenarios (R : FIOTestRunner) (beh : BehEnv) : List TestResult :=
  R.core_scenarios.filterMap (runCoreScenario R beh)

/-- The swept part of run_comprehensive_fio_tests: the nested loops over block
sizes, queue depths, the mapped concurrency list and read-mix percentages. -/
def sweptResults (R : FIOTestRunner) (beh : BehEnv) : List TestResult :=
  R.block_sizes.flatMap fun block_size =>
    R.queue_depths.flatMap fun queue_depth =>
      (R.iodepth_numjobs_mapping queue_depth).flatMap fun numjobs =>
        R.rwmix_ratios.map fun rwmix_read =>
          run_fio_test (beh (test_type_for rwmix_read) block_size queue_depth numjobs rwmix_read)
            (test_type_for rwmix_read) block_size queue_depth numjobs rwmix_read
            R.runtime R.filesystem

/-- FIOTestRunner.run_comprehensive_fio_tests: the core scenarios are run first
and extended into the result list, then every swept scenario appends exactly one
TestResult. -/
def run_comprehensive_fio_tests (R : FIOTestRunner) (beh : BehEnv) : List TestResult :=
  run_core_scenarios R beh ++ sweptResults R beh

/-! ## tools/check_fio_product.py -/

/-- The violation list collected by tools/check_fio_product.py over the full
shipped matrix: every (bs, qd, nj) whose product exceeds 256. -/
def check_fio_product_violations (R : FIOTestRunner) : List (String × ℤ × ℤ × ℤ) :=
  R.block_sizes.flatMap fun bs =>
    R.queue_depths.flatMap fun qd =>
      (R.iodepth_numjobs_mapping qd).filterMap fun nj =>
        if qd * nj > 256 then some (bs, qd, nj, qd * nj) else none

/-! ## tools/aggregate.py: aggregate_cases -/

/-- One direction of a case record in a per-host result file; every field may be
absent (r.get with a 0.0 default, and an explicit lat_us presence test). -/
structure DirIn where
  iops : Option ℚ := none
  bw_MBps : Option ℚ := none
  lat_us : Option ℚ := none
deriving DecidableEq

/-- One case record of a host result file; a missing read or write sub-record
behaves exactly like an empty one. -/
structure CaseIn where
  name : Option String := none
  read : DirIn := {}
  write : DirIn := {}
deriving DecidableEq

/-- The running accumulator agg[name] together with count[name]. -/
structure AggEntry where
  read_iops : ℚ := 0
  read_bw : ℚ := 0
  read_lat_sum : ℚ := 0
  read_cnt : ℕ := 0
  write_iops : ℚ := 0
  write_bw : ℚ := 0
  write_lat_sum : ℚ := 0
  write_cnt : ℕ := 0
deriving DecidableEq

/-- The accumulation body of the case loop: iops and bw_MBps are summed
unconditionally; lat_us is summed, and the direction count incremented, only
when the record carries a lat_us key. -/
def addCase (e : AggEntry) (c : CaseIn) : AggEntry :=
  { read_iops := e.read_iops + c.read.iops.getD 0,
    read_bw := e.read_bw + c.read.bw_MBps.getD 0,
    read_lat_sum := e.read_lat_sum + (match c.read.lat_us with | some v => v | none => 0),
    read_cnt := e.read_cnt + (if c.read.lat_us.isSome then 1 else 0),
    write_iops := e.write_iops + c.write.iops.getD 0,
    write_bw := e.write_bw + c.write.bw_MBps.getD 0,
    write_lat_sum := e.write_lat_sum + (match c.write.lat_us with | some v => v | none => 0),
    write_cnt := e.write_cnt + (if c.write.lat_us.isSome then 1 else 0) }

/-- The key under which a record accumulates: none when the record has no name
or a falsy (empty) one, in which case the loop continues past it. -/
def caseKey (c : CaseIn) : Option String :=
  match c.name with
  | none => none
  | some n => if n = "" then none else some n

/-- One iteration of the inner case loop: establish the entry on first
occurrence of the name (python dict insertion order), then accumulate. -/
def stepCase (st : List (String × AggEntry)) (c : CaseIn) : List (String × AggEntry) :=
  match caseKey c with
  | none => st
  | some n =>
    let st1 := if st.any (fun p => p.1 == n) then st else st ++ [(n, {})]
    st1.map fun p => if p.1 == n then (p.1, addCase p.2 c) else p

/-- One iteration of the file loop: an unreadable or undecodable file (none) is
skipped entirely. -/
def stepFile (st : List (String × AggEntry)) (f : Option (List CaseIn)) :
    List (String × AggEntry) :=
  match f with
  | none => st
  | some cs => cs.foldl stepCase st

/-- One direction of a finalized (or compared) case: the schema shared by
aggregate.json output and the inputs of compare_cases. -/
structure DirOut where
  iops : ℚ
  bw_MBps : ℚ
  lat_us : ℚ
deriving DecidableEq

structure CaseOut where
  name : String
  read : DirOut
  write : DirOut
deriving DecidableEq

/-- Lexicographic code-point comparison of strings (Python string ordering as
used by sorted). -/
def chLe : List Char → List Char → Bool
  | [], _ => true
  | _ :: _, [] => false
  | a :: as, b :: bs => if a = b then chLe as bs else decide (a < b)

def strLe (a b : String) : Bool := chLe a.data b.data

/-- Finalization of one accumulated entry: the latency divisor is count or 1. -/
def finalizeEntry (p : String × AggEntry) : CaseOut :=
  { name := p.1,
    read := { iops := p.2.read_iops, bw_MBps := p.2.read_bw,
              lat_us := p.2.read_lat_sum / ((if p.2.read_cnt = 0 then 1 else p.2.read_cnt : ℕ) : ℚ) },
    write := { iops := p.2.write_iops, bw_MBps := p.2.write_bw,
               lat_us := p.2.write_lat_sum / ((if p.2.write_cnt = 0 then 1 else p.2.write_cnt : ℕ) : ℚ) } }

/-- tools/aggregate.py aggregate_cases: fold the files, finalize every entry and
sort the result by case name. -/
def aggregate_cases (files : List (Option (List CaseIn))) : List CaseOut :=
  List.insertionSort (fun x y => strLe x.name y.name = true)
    ((files.foldl stepFile []).map finalizeEntry)

/-- All case records of the readable files, in processing order. -/
def allCaseRecords (files : List (Option (List CaseIn))) : List CaseIn :=
  (files.filterMap id).flatMap (fun l => l)

/-- The records that accumulate into the case named n. -/
def contributions (files : List (Option (List CaseIn))) (n : String) : List CaseIn :=
  (allCaseRecords files).filter (fun c => caseKey c == some n)

def readIopsSum (files : List (Option (List CaseIn))) (n : String) : ℚ :=
  ((contributions files n).map (fun c => c.read.iops.getD 0)).sum

def readBwSum (files : List (Option (List CaseIn))) (n : String) : ℚ :=
  ((contributions files n).map (fun c => c.read.bw_MBps.getD 0)).sum

def readLatVals (files : List (Option (List CaseIn))) (n : String) : List ℚ :=
  (contributions files n).filterMap (fun c => c.read.lat_us)

def writeIopsSum (files : List (Option (List CaseIn))) (n : String) : ℚ :=
  ((contributions files n).map (fun c => c.write.iops.getD 0)).sum

def writeBwSum (files : List (Option (List CaseIn))) (n : String) : ℚ :=
  ((contributions files n).map (fun c => c.write.bw_MBps.getD 0)).sum

def writeLatVals (files : List (Option (List CaseIn))) (n : String) : List ℚ :=
  (contributions files n).filterMap (fun c => c.write.lat_us)

/-- The input files with every record lacking a usable (non-empty) name removed;
aggregation is insensitive to this filtering. -/
def stripNameless (files : List (Option (List CaseIn))) : List (Option (List CaseIn)) :=
  files.map (Option.map (List.filter (fun c => (caseKey c).isSome)))

/-! ## tools/compare.py: compare_cases -/

/-- One compared metric: the dict built by the metric closure, plus the trend
key that the latency metrics alone receive afterwards. -/
structure MetricCmp where
  baseline : ℚ
  current : ℚ
  delta : ℚ
  delta_pct : Option ℚ
  trend : Option String := none
deriving DecidableEq

/-- The metric closure of compare_cases: delta and, when the baseline is not
zero, the percentage change. -/
def metric (baseline current : ℚ) : MetricCmp :=
  { baseline := baseline,
    current := current,
    delta := current - baseline,
    delta_pct := if baseline = 0 then none else some ((current - baseline) / baseline * 100),
    trend := none }

/-- Lines 35-36: the trend tag attached to the two latency metrics. -/
def attachTrend (m : MetricCmp) : MetricCmp :=
  { m with trend := some (if m.delta < 0 then ("improved")
                          else if m.delta > 0 then ("declined") else ("flat")) }

structure CmpItem where
  name : String
  read_iops : MetricCmp
  write_iops : MetricCmp
  read_bw : MetricCmp
  write_bw : MetricCmp
  read_lat_us : MetricCmp
  write_lat_us : MetricCmp
deriving DecidableEq

/-- The item built for one common case name. -/
def cmpItem (n : String) (ca cb : CaseOut) : CmpItem :=
  { name := n,
    read_iops := metric ca.read.iops cb.read.iops,
    write_iops := metric ca.write.iops cb.write.iops,
    read_bw := metric ca.read.bw_MBps cb.read.bw_MBps,
    write_bw := metric ca.write.bw_MBps cb.write.bw_MBps,
    read_lat_us := attachTrend (metric ca.read.lat_us cb.read.lat_us),
    write_lat_us := attachTrend (metric ca.write.lat_us cb.write.lat_us) }

/-- The dict comprehension keyed by name: a later record with the same name
overwrites an earlier one. -/
def buildMap (cs : List CaseOut) (n : String) : Option CaseOut :=
  cs.reverse.find? (fun c => c.name == n)

/-- The sorted intersection of the two key sets. -/
def commonNames (a b : List CaseOut) : List String :=
  List.insertionSort (fun x y => strLe x y = true)
    (((a.map (fun c => c.name)).dedup).filter (fun n => (b.map (fun c => c.name)).contains n))

/-- tools/compare.py compare_cases. -/
def compare_cases (a b : List CaseOut) : List CmpItem :=
  (commonNames a b).filterMap fun n =>
    match buildMap a n, buildMap b n with
    | some ca, some cb => some (cmpItem n ca cb)
    | _, _ => none

/-- The result state carried by either branch of the exception-threading
parser (used to phrase state-preservation facts). -/
def resultOfE : Except (PyErr × TestResult) TestResult → TestResult
  | .ok r => r
  | .error (_, r) => r

/-- The result state carried by either branch of the text parser. -/
def resultOfT : Except TestResult TestResult → TestResult
  | .ok r => r
  | .error r => r

/-- All performance metrics of a TestResult left at their zero defaults. -/
def metricsZero (r : TestResult) : Prop :=
  r.read_iops = 0 ∧ r.write_iops = 0 ∧ r.read_mbps = 0 ∧ r.write_mbps = 0 ∧
  r.read_latency_us = 0 ∧ r.write_latency_us = 0 ∧ r.throughput_mbps = 0

/-- The delta and percentage facts claimed for every compared metric. -/
def basicMetricFacts (m : MetricCmp) : Prop :=
  m.delta = m.current - m.baseline ∧
  (m.baseline = 0 → m.delta_pct = none) ∧
  (m.baseline ≠ 0 → m.delta_pct = some (m.delta / m.baseline * 100))

/-- The sign-aware trend tag claimed for the latency metrics. -/
def latTrendFact (m : MetricCmp) : Prop :=
  m.trend = some (if m.delta < 0 then ("improved")
                  else if m.delta > 0 then ("declined") else ("flat"))

/-! ## Concrete inputs used by the witness and counterexample theorems -/

/-- A structured fio JSON document: first job with read.iops=1000, read.bw=2048,
write.iops=500, write.bw=1024 and mean latencies in nanoseconds; a second job
with different numbers, to observe that only the first job is consulted. -/
def fioJsonSample : JVal :=
  .jobj [("jobs", .jarr [
    .jobj [("read", .jobj [("iops", .jnum 1000), ("bw", .jnum 2048),
                           ("lat_ns", .jobj [("mean", .jnum 2000000)])]),
           ("write", .jobj [("iops", .jnum 500), ("bw", .jnum 1024),
                            ("lat_ns", .jobj [("mean", .jnum 3000000)])])],
    .jobj [("read", .jobj [("iops", .jnum 7), ("bw", .jnum 7)])]])]

/-- A decoded document whose first job is a list, not a dict: job.get then
raises AttributeError, which the parser's except tuple does not catch. -/
def alienJobsDoc : JVal := .jobj [("jobs", .jarr [.jarr []])]

/-- Host file 1 of the aggregation example: case X with read.iops=100 and a
write latency of 50, plus a nameless record that must be skipped. -/
def aggFileA : Option (List CaseIn) :=
  some [{ name := some ("X"), read := { iops := some 100 }, write := { lat_us := some 50 } },
        { name := none, read := { iops := some 999 } }]

/-- Host file 2 of the aggregation example: case X with read.iops=100, a read
latency of 30 and no write latency. -/
def aggFileB : Option (List CaseIn) :=
  some [{ name := some ("X"), read := { iops := some 100, lat_us := some 30 } }]

def aggExampleFiles : List (Option (List CaseIn)) := [aggFileA, aggFileB]

/-- Baseline case X of the comparison example: read latency 100, read iops 1000. -/
def caseXbase : CaseOut :=
  { name := "X", read := { iops := 1000, bw_MBps := 10, lat_us := 100 },
    write := { iops := 5, bw_MBps := 0, lat_us := 7 } }

/-- Current case X of the comparison example: read latency improved to 80, read
iops 1200, write bandwidth grown from a zero baseline. -/
def caseXcur : CaseOut :=
  { name := "X", read := { iops := 1200, bw_MBps := 11, lat_us := 80 },
    write := { iops := 5, bw_MBps := 2, lat_us := 7 } }

/-- Baseline cases of the comparison example: X plus a case name A present only
in the baseline. -/
def cmpBaseCases : List CaseOut :=
  [caseXbase,
   { name := "A", read := { iops := 1, bw_MBps := 1, lat_us := 1 },
     write := { iops := 1, bw_MBps := 1, lat_us := 1 } }]

/-- Current cases of the comparison example. -/
def cmpCurCases : List CaseOut := [caseXcur]

/-- The single output row of the aggregation example: case X accumulated from
file A's named record and then file B's record. -/
def aggXOut : CaseOut :=
  finalizeEntry (("X"),
    addCase
      (addCase {}
        { name := some ("X"), read := { iops := some 100 }, write := { lat_us := some 50 } })
      { name := some ("X"), read := { iops := some 100, lat_us := some 30 } })

/-- A case whose read direction never reports a latency, for the
divide-by-zero clamp. -/
def caseY : CaseIn :=
  { name := some ("Y"),
    read := { iops := some 5, bw_MBps := some 1 },
    write := { iops := some 7, bw_MBps := some 2, lat_us := some 80 } }

def caseNameless : CaseIn := { read := { iops := some 999 } }

def caseEmptyName : CaseIn := { name := some (""), write := { iops := some 1 } }

/-- Files for the safety example: a record with no name, an unreadable file and
a record with an empty name, all to be skipped. -/
def aggExampleFiles2 : List (Option (List CaseIn)) :=
  [some [caseY, caseNameless], none, some [caseEmptyName]]

def aggYOut : CaseOut := finalizeEntry (("Y"), addCase {} caseY)

/-! ## Helper lemmas -/

theorem length_filterMap_eq_countP (f : α → Option β) (l : List α) :
    (l.filterMap f).length = l.countP (fun a => (f a).isSome) := by
  induction l with
  | nil => rfl
  | cons x xs ih =>
    cases h : f x <;>
      simp [List.filterMap_cons, List.countP_cons, h, ih]

theorem string_data_append (a b : String) : (a ++ b).data = a.data ++ b.data := rfl

/-- Two strings with concrete distinct prefixes differ, regardless of the
suffixes: witnessed by one character position inside both prefixes. -/
theorem ne_of_append_append (p q s t : String) (k : ℕ)
    (hp : k < p.data.length) (hq : k < q.data.length)
    (hne : p.data[k]? ≠ q.data[k]?) : p ++ s ≠ q ++ t := by
  intro h
  apply hne
  have hd : p.data ++ s.data = q.data ++ t.data := congrArg String.data h
  have h1 : (p.data ++ s.data)[k]? = p.data[k]? := by
    rw [List.getElem?_append, if_pos hp]
  have h2 : (q.data ++ t.data)[k]? = q.data[k]? := by
    rw [List.getElem?_append, if_pos hq]
  rw [← h1, ← h2, hd]

/-- A string with a concrete prefix differs from a literal that disagrees with
the prefix at one position. -/
theorem ne_of_append_lit (p s y : String) (k : ℕ) (hp : k < p.data.length)
    (hne : p.data[k]? ≠ y.data[k]?) : p ++ s ≠ y := by
  intro h
  apply hne
  have hd : p.data ++ s.data = y.data := congrArg String.data h
  have h1 : (p.data ++ s.data)[k]? = p.data[k]? := by
    rw [List.getElem?_append, if_pos hp]
  rw [← h1, hd]

/-! ## State-preservation lemmas for the parse pipeline -/

theorem withState_rwmix {α} (r : TestResult) (x : Except PyErr α)
    (k : α → Except (PyErr × TestResult) TestResult)
    (hk : ∀ a, (resultOfE (k a)).rwmix_read = r.rwmix_read) :
    (resultOfE (withState r x k)).rwmix_read = r.rwmix_read := by
  cases x with
  | error e => rfl
  | ok a => exact hk a

theorem parseReadSection_rwmix (job : JVal) (r : TestResult) :
    (resultOfE (parseReadSection job r)).rwmix_read = r.rwmix_read := by
  unfold parseReadSection
  apply withState_rwmix
  intro rd
  by_cases hrd : rd.truthy = true
  · rw [if_pos hrd]
    apply withState_rwmix
    intro v
    apply withState_rwmix
    intro q
    apply withState_rwmix
    intro vb
    apply withState_rwmix
    intro qb
    apply withState_rwmix
    intro vl
    apply withState_rwmix
    intro vm
    apply withState_rwmix
    intro qm
    rfl
  · rw [if_neg hrd]
    rfl

theorem parseWriteSection_rwmix (job : JVal) (r : TestResult) :
    (resultOfE (parseWriteSection job r)).rwmix_read = r.rwmix_read := by
  unfold parseWriteSection
  apply withState_rwmix
  intro wd
  by_cases hwd : wd.truthy = true
  · rw [if_pos hwd]
    apply withState_rwmix
    intro v
    apply withState_rwmix
    intro q
    apply withState_rwmix
    intro vb
    apply withState_rwmix
    intro qb
    apply withState_rwmix
    intro vl
    apply withState_rwmix
    intro vm
    apply withState_rwmix
    intro qm
    rfl
  · rw [if_neg hwd]
    rfl

theorem parseFioJsonRaw_rwmix (input : Option JVal) (r : TestResult) :
    (resultOfE (parseFioJsonRaw input r)).rwmix_read = r.rwmix_read := by
  cases input with
  | none => rfl
  | some data =>
    unfold parseFioJsonRaw
    apply withState_rwmix
    intro jobs
    by_cases hj : jobs.truthy = true
    · rw [if_neg (not_not_intro hj)]
      apply withState_rwmix
      intro job
      have hread := parseReadSection_rwmix job r
      rcases h1 : parseReadSection job r with ⟨e1v, r1v⟩ | r1v
      · rw [h1] at hread
        exact hread
      · rw [h1] at hread
        dsimp only [resultOfE] at hread
        dsimp only
        have hwrite := parseWriteSection_rwmix job r1v
        rcases h2 : parseWriteSection job r1v with ⟨e2v, r2v⟩ | r2v
        · rw [h2] at hwrite
          dsimp only [resultOfE] at hwrite ⊢
          exact hwrite.trans hread
        · rw [h2] at hwrite
          dsimp only [resultOfE] at hwrite ⊢
          exact hwrite.trans hread
    · rw [if_pos hj]
      rfl

theorem parse_fio_json_output_rwmix (input : Option JVal) (r : TestResult) :
    (resultOfE (parse_fio_json_output input r)).rwmix_read = r.rwmix_read := by
  unfold parse_fio_json_output
  have hraw := parseFioJsonRaw_rwmix input r
  rcases h : parseFioJsonRaw input r with ⟨e1v, r1v⟩ | r1v
  · rw [h] at hraw
    dsimp only [resultOfE] at hraw ⊢
    by_cases hc : caughtByJsonHandler e1v = true
    · simp only [hc, if_true]
      exact hraw
    · simp only [hc, if_false]
      exact hraw
  · rw [h] at hraw
    exact hraw

theorem parsePhase_rwmix (out : FioOut) (outputFile : Option (Option JVal)) (r : TestResult) :
    (resultOfE (parsePhase out outputFile r)).rwmix_read = r.rwmix_read := by
  unfold parsePhase
  cases outputFile with
  | none => exact parse_fio_json_output_rwmix _ _
  | some j =>
    dsimp only
    have h1 := parse_fio_json_output_rwmix j r
    rcases h : parse_fio_json_output j r with ⟨e1v, r1v⟩ | r1v
    · rw [h] at h1
      dsimp only [resultOfE] at h1
      have h2 := parse_fio_json_output_rwmix out.jsonView r1v
      exact h2.trans h1
    · rw [h] at h1
      exact h1

theorem readPart_rwmix (r : TestResult) (part0 : String) :
    (resultOfT (readPart r part0)).rwmix_read = r.rwmix_read := by
  unfold readPart
  dsimp only
  by_cases h1 : pyIn ("IOPS=") (pyStrip part0)
  · rw [if_pos h1]
    cases pyFloat (splitEq1 (pyStrip part0)) <;> rfl
  · rw [if_neg h1]
    by_cases h2 : pyIn ("BW=") (pyStrip part0)
    · rw [if_pos h2]
      cases bwToMbps (splitEq1 (pyStrip part0)) r.read_mbps <;> rfl
    · rw [if_neg h2]
      rfl

theorem writePart_rwmix (r : TestResult) (part0 : String) :
    (resultOfT (writePart r part0)).rwmix_read = r.rwmix_read := by
  unfold writePart
  dsimp only
  by_cases h1 : pyIn ("IOPS=") (pyStrip part0)
  · rw [if_pos h1]
    cases pyFloat (splitEq1 (pyStrip part0)) <;> rfl
  · rw [if_neg h1]
    by_cases h2 : pyIn ("BW=") (pyStrip part0)
    · rw [if_pos h2]
      cases bwToMbps (splitEq1 (pyStrip part0)) r.write_mbps <;> rfl
    · rw [if_neg h2]
      rfl

theorem foldlM_rwmix (step : TestResult → String → Except TestResult TestResult)
    (hstep : ∀ r p, (resultOfT (step r p)).rwmix_read = r.rwmix_read) :
    ∀ (parts : List String) (r : TestResult),
      (resultOfT (parts.foldlM step r)).rwmix_read = r.rwmix_read := by
  intro parts
  induction parts with
  | nil => intro r; rfl
  | cons p ps ih =>
    intro r
    rw [List.foldlM_cons]
    have hs := hstep r p
    rcases h : step r p with rv | rv
    · rw [h] at hs
      dsimp only [resultOfT] at hs
      dsimp only [Bind.bind, Except.bind, resultOfT]
      exact hs
    · rw [h] at hs
      dsimp only [resultOfT] at hs
      dsimp only [Bind.bind, Except.bind]
      exact (ih rv).trans hs

theorem lineStep_rwmix (r : TestResult) (line0 : String) :
    (resultOfT (lineStep r line0)).rwmix_read = r.rwmix_read := by
  unfold lineStep
  dsimp only
  by_cases h1 : (pyIn ("read:") (pyStrip line0) && pyIn ("IOPS=") (pyStrip line0)) = true
  · rw [if_pos h1]
    exact foldlM_rwmix readPart readPart_rwmix _ r
  · rw [if_neg h1]
    by_cases h2 : (pyIn ("write:") (pyStrip line0) && pyIn ("IOPS=") (pyStrip line0)) = true
    · rw [if_pos h2]
      exact foldlM_rwmix writePart writePart_rwmix _ r
    · rw [if_neg h2]
      rfl

theorem parse_fio_text_output_rwmix (output : String) (r : TestResult) :
    (parse_fio_text_output output r).rwmix_read = r.rwmix_read := by
  unfold parse_fio_text_output
  have h := foldlM_rwmix lineStep lineStep_rwmix (pySplit output ("\n")) r
  rcases hh : (pySplit output ("\n")).foldlM lineStep r with rv | rv
  · rw [hh] at h
    exact h
  · rw [hh] at h
    dsimp only [resultOfT] at h
    exact h

theorem run_fio_test_rwmix (beh : ExecBehavior) (tt bs : String) (qd nj mix rt : ℤ) (fs : String) :
    (run_fio_test beh tt bs qd nj mix rt fs).rwmix_read = mix := by
  unfold run_fio_test
  cases hb : beh.first with
  | success out outputFile =>
    dsimp only
    have hp := parsePhase_rwmix out outputFile (initResult tt bs qd nj mix rt fs)
    rcases h : parsePhase out outputFile (initResult tt bs qd nj mix rt fs) with ⟨ev, rv⟩ | rv
    · rw [h] at hp
      dsimp only [resultOfE] at hp
      exact hp
    · rw [h] at hp
      dsimp only [resultOfE] at hp
      dsimp only
      by_cases hz : rv.read_iops ≠ 0 ∨ rv.write_iops ≠ 0
      · rw [if_pos hz]
        exact hp
      · rw [if_neg hz]
        exact (parse_fio_text_output_rwmix out.textView rv).trans hp
  | failure stderr => rfl
  | timedOut =>
    cases hb2 : beh.second with
    | success out outputFile =>
      dsimp only
      have hp := parsePhase_rwmix out outputFile (initResult tt bs qd nj mix rt fs)
      rcases h : parsePhase out outputFile (initResult tt bs qd nj mix rt fs) with ⟨ev, rv⟩ | rv
      · rw [h] at hp
        dsimp only [resultOfE] at hp
        exact hp
      · rw [h] at hp
        dsimp only [resultOfE] at hp
        exact hp
    | failure stderr => rfl
    | timedOut => rfl

/-- No base argument of the fio command can collide with an --rwmixread argument. -/
theorem rwmixArg_not_mem_base (tt bs d e : String) (qd nj mix rt : ℤ) (x : String) :
    (("--rwmixread=") ++ x) ∉
      ([("fio"), "--name=test", ("--filename=") ++ fioTestFile bs qd nj mix, ("--rw=") ++ tt,
        ("--bs=") ++ bs, ("--iodepth=") ++ pyStrInt qd, ("--numjobs=") ++ pyStrInt nj,
        ("--runtime=") ++ pyStrInt rt, "--time_based", ("--direct=") ++ d, ("--ioengine=") ++ e,
        "--group_reporting", "--output-format=json", "--size=10G",
        ("--output=") ++ fioOutputFile bs qd nj mix] : List String) := by
  intro hmem
  simp only [List.mem_cons] at hmem
  rcases hmem with h | h | h | h | h | h | h | h | h | h | h | h | h | h | h | h
  · exact ne_of_append_lit ("--rwmixread=") x ("fio") 0 (by decide) (by decide) h
  · exact ne_of_append_lit ("--rwmixread=") x ("--name=test") 2 (by decide) (by decide) h
  · exact ne_of_append_append ("--rwmixread=") ("--filename=") x (fioTestFile bs qd nj mix) 2
      (by decide) (by decide) (by decide) h
  · exact ne_of_append_append ("--rwmixread=") ("--rw=") x tt 4
      (by decide) (by decide) (by decide) h
  · exact ne_of_append_append ("--rwmixread=") ("--bs=") x bs 2
      (by decide) (by decide) (by decide) h
  · exact ne_of_append_append ("--rwmixread=") ("--iodepth=") x (pyStrInt qd) 2
      (by decide) (by decide) (by decide) h
  · exact ne_of_append_append ("--rwmixread=") ("--numjobs=") x (pyStrInt nj) 2
      (by decide) (by decide) (by decide) h
  · exact ne_of_append_append ("--rwmixread=") ("--runtime=") x (pyStrInt rt) 3
      (by decide) (by decide) (by decide) h
  · exact ne_of_append_lit ("--rwmixread=") x ("--time_based") 2 (by decide) (by decide) h
  · exact ne_of_append_append ("--rwmixread=") ("--direct=") x d 2
      (by decide) (by decide) (by decide) h
  · exact ne_of_append_append ("--rwmixread=") ("--ioengine=") x e 2
      (by decide) (by decide) (by decide) h
  · exact ne_of_append_lit ("--rwmixread=") x ("--group_reporting") 2 (by decide) (by decide) h
  · exact ne_of_append_lit ("--rwmixread=") x ("--output-format=json") 2 (by decide) (by decide) h
  · exact ne_of_append_lit ("--rwmixread=") x ("--size=10G") 2 (by decide) (by decide) h
  · exact ne_of_append_append ("--rwmixread=") ("--output=") x (fioOutputFile bs qd nj mix) 2
      (by decide) (by decide) (by decide) h
  · exact List.not_mem_nil _ h

/-! ## Claim C2 -/

/-- C2: for every scenario of the swept matrix of the shipped configuration —
every block size, every queue depth, every concurrency value mapped to that
depth, every read-mix ratio — the product queue_depth × numjobs is at most 256,
and the standalone validation pass of tools/check_fio_product.py over the full
matrix collects zero violations. -/
theorem C2_product_bound (runtime : ℤ) (filesystem : String) (core : List CoreScenario) :
    (∀ bs ∈ (shippedRunner runtime filesystem core).block_sizes,
      ∀ qd ∈ (shippedRunner runtime filesystem core).queue_depths,
        ∀ nj ∈ (shippedRunner runtime filesystem core).iodepth_numjobs_mapping qd,
          ∀ mix ∈ (shippedRunner runtime filesystem core).rwmix_ratios,
            qd * nj ≤ 256) ∧
    check_fio_product_violations (shippedRunner runtime filesystem core) = [] := by
  constructor
  · simp only [shippedRunner]
    decide
  · simp only [check_fio_product_violations, shippedRunner]
    decide

/-- Witness for C2 at the largest shipped combination 32 × 8. -/
theorem C2_product_bound_witness :
    ((32 : ℤ) * 8 ≤ 256) ∧
    check_fio_product_violations (shippedRunner 3 ("ext4") []) = [] :=
  ⟨(C2_product_bound 3 ("ext4") []).1 ("4k") (by decide) 32 (by decide) 8 (by decide)
      0 (by decide),
   (C2_product_bound 3 ("ext4") []).2⟩

/-! ## Claim C8 -/

/-- C8: parsing a structured fio JSON document whose first job has
read.iops=1000, read.bw=2048 KB/s, write.iops=500 and write.bw=1024 KB/s sets
read_iops=1000, read_mbps=2.0, write_iops=500, write_mbps=1.0 and
throughput_mbps=3.0 on the TestResult; the first job is used (the second job of
the sample carries different numbers), bandwidth is divided by 1024, lat_ns.mean
is divided by 1000 (2000000ns to 2000µs, 3000000ns to 3000µs), and the total
throughput is recomputed as read_mbps + write_mbps. -/
theorem C8_json_roundtrip :
    parse_fio_json_output (some fioJsonSample) (initResult "randrw" "4k" 1 1 50 3 "ext4") =
      .ok { initResult "randrw" "4k" 1 1 50 3 "ext4" with
            read_iops := 1000, read_mbps := 2, read_latency_us := 2000,
            write_iops := 500, write_mbps := 1, write_latency_us := 3000,
            throughput_mbps := 3 } := by
  have h : parse_fio_json_output (some fioJsonSample) (initResult "randrw" "4k" 1 1 50 3 "ext4") =
      .ok { initResult "randrw" "4k" 1 1 50 3 "ext4" with
            read_iops := 1000, read_mbps := (2048 : ℚ) / 1024,
            read_latency_us := (2000000 : ℚ) / 1000,
            write_iops := 500, write_mbps := (1024 : ℚ) / 1024,
            write_latency_us := (3000000 : ℚ) / 1000,
            throughput_mbps := (2048 : ℚ) / 1024 + (1024 : ℚ) / 1024 } := rfl
  rw [h]
  norm_num [TestResult.mk.injEq]

/-! ## Claim C9 -/

/-- C9: for every swept scenario, a read-mix of 0 yields test type randwrite,
100 yields randread, and any other value yields randrw; the exact percentage is
preserved in the rwmix_read field of the TestResult returned by _run_fio_test;
and the synthesized command contains the --rwmixread argument exactly when the
test type is randrw. -/
theorem C9_readmix_kind (block_size : String) (queue_depth numjobs rwmix_read runtime : ℤ)
    (filesystem : String) (beh : ExecBehavior) :
    (rwmix_read = 0 → test_type_for rwmix_read = "randwrite") ∧
    (rwmix_read = 100 → test_type_for rwmix_read = "randread") ∧
    (rwmix_read ≠ 0 → rwmix_read ≠ 100 → test_type_for rwmix_read = "randrw") ∧
    (run_fio_test beh (test_type_for rwmix_read) block_size queue_depth numjobs rwmix_read
        runtime filesystem).rwmix_read = rwmix_read ∧
    ((("--rwmixread=") ++ pyStrInt rwmix_read) ∈
        fioCommand (test_type_for rwmix_read) block_size queue_depth numjobs rwmix_read
          runtime filesystem
      ↔ test_type_for rwmix_read = "randrw") := by
  refine ⟨?_, ?_, ?_, run_fio_test_rwmix beh _ block_size queue_depth numjobs rwmix_read
    runtime filesystem, ?_, ?_⟩
  · intro h
    simp [test_type_for, h]
  · intro h
    simp [test_type_for, h]
  · intro h0 h100
    simp [test_type_for, h0, h100]
  · intro hmem
    by_cases ht : test_type_for rwmix_read = "randrw"
    · exact ht
    · exfalso
      unfold fioCommand at hmem
      rw [if_neg ht] at hmem
      simp only [List.append_nil] at hmem
      exact rwmixArg_not_mem_base (test_type_for rwmix_read) block_size _ _
        queue_depth numjobs rwmix_read runtime (pyStrInt rwmix_read) hmem
  · intro ht
    unfold fioCommand
    rw [if_pos ht]
    exact List.mem_append_right _ (List.mem_singleton.mpr rfl)

/-- Witness for C9 at read-mix 0, 100 and 50. -/
theorem C9_readmix_kind_witness :
    test_type_for 0 = "randwrite" ∧ test_type_for 100 = "randread" ∧
    test_type_for 50 = "randrw" ∧
    (("--rwmixread=") ++ pyStrInt 50) ∈ fioCommand (test_type_for 50) ("4k") 1 1 50 3 ("ext4") := by
  have h0 := C9_readmix_kind ("4k") 1 1 0 3 ("ext4") ⟨.timedOut, .timedOut⟩
  have h100 := C9_readmix_kind ("4k") 1 1 100 3 ("ext4") ⟨.timedOut, .timedOut⟩
  have h50 := C9_readmix_kind ("4k") 1 1 50 3 ("ext4") ⟨.timedOut, .timedOut⟩
  exact ⟨h0.1 rfl, h100.2.1 rfl, h50.2.2.1 (by decide) (by decide),
    (h50.2.2.2.2).mpr (h50.2.2.1 (by decide) (by decide))⟩

/-! ## Claim C1 -/

theorem sweptResults_length (R : FIOTestRunner) (beh : BehEnv) :
    (sweptResults R beh).length =
      (R.queue_depths.map (fun qd =>
        (R.iodepth_numjobs_mapping qd).length * R.block_sizes.length *
          R.rwmix_ratios.length)).sum := by
  unfold sweptResults
  simp only [List.length_flatMap, Function.comp_def, List.length_map, List.map_const',
    List.sum_replicate, smul_eq_mul]
  rw [← List.sum_map_mul_left]
  exact congrArg List.sum (List.map_congr_left (fun qd _ => by ring))

/-- C1: for every configured axis set, run_comprehensive_fio_tests returns one
TestResult per core scenario that executes without raising plus exactly
(sum over queue depths qd of |iodepth_numjobs_mapping[qd]| × |block_sizes| ×
|rwmix_ratios|) swept TestResults; with the shipped configuration the swept
count is 480 and equals the reported total_scenarios. -/
theorem C1_matrix_count :
    (∀ (R : FIOTestRunner) (beh : BehEnv),
      (run_comprehensive_fio_tests R beh).length =
        R.core_scenarios.countP (fun sc => (runCoreScenario R beh sc).isSome) +
        (R.queue_depths.map (fun qd =>
          (R.iodepth_numjobs_mapping qd).length * R.block_sizes.length *
            R.rwmix_ratios.length)).sum) ∧
    (∀ (runtime : ℤ) (filesystem : String) (core : List CoreScenario) (beh : BehEnv),
      (sweptResults (shippedRunner runtime filesystem core) beh).length = 480 ∧
      total_scenarios (shippedRunner runtime filesystem core) = 480) := by
  constructor
  · intro R beh
    unfold run_comprehensive_fio_tests
    rw [List.length_append, sweptResults_length]
    congr 1
    unfold run_core_scenarios
    exact length_filterMap_eq_countP _ _
  · intro runtime filesystem core beh
    constructor
    · rw [sweptResults_length]
      simp only [shippedRunner]
      decide
    · simp only [total_scenarios, shippedRunner]
      decide

-- error_message preservation through the text parser
theorem readPart_err (r : TestResult) (part0 : String) :
    (resultOfT (readPart r part0)).error_message = r.error_message := by
  unfold readPart
  dsimp only
  by_cases h1 : pyIn ("IOPS=") (pyStrip part0)
  · rw [if_pos h1]
    cases pyFloat (splitEq1 (pyStrip part0)) <;> rfl
  · rw [if_neg h1]
    by_cases h2 : pyIn ("BW=") (pyStrip part0)
    · rw [if_pos h2]
      cases bwToMbps (splitEq1 (pyStrip part0)) r.read_mbps <;> rfl
    · rw [if_neg h2]
      rfl

theorem writePart_err (r : TestResult) (part0 : String) :
    (resultOfT (writePart r part0)).error_message = r.error_message := by
  unfold writePart
  dsimp only
  by_cases h1 : pyIn ("IOPS=") (pyStrip part0)
  · rw [if_pos h1]
    cases pyFloat (splitEq1 (pyStrip part0)) <;> rfl
  · rw [if_neg h1]
    by_cases h2 : pyIn ("BW=") (pyStrip part0)
    · rw [if_pos h2]
      cases bwToMbps (splitEq1 (pyStrip part0)) r.write_mbps <;> rfl
    · rw [if_neg h2]
      rfl

theorem foldlM_err (step : TestResult → String → Except TestResult TestResult)
    (hstep : ∀ r p, (resultOfT (step r p)).error_message = r.error_message) :
    ∀ (parts : List String) (r : TestResult),
      (resultOfT (parts.foldlM step r)).error_message = r.error_message := by
  intro parts
  induction parts with
  | nil => intro r; rfl
  | cons p ps ih =>
    intro r
    rw [List.foldlM_cons]
    have hs := hstep r p
    rcases h : step r p with rv | rv
    · rw [h] at hs
      dsimp only [resultOfT] at hs
      dsimp only [Bind.bind, Except.bind, resultOfT]
      exact hs
    · rw [h] at hs
      dsimp only [resultOfT] at hs
      dsimp only [Bind.bind, Except.bind]
      exact (ih rv).trans hs

theorem lineStep_err (r : TestResult) (line0 : String) :
    (resultOfT (lineStep r line0)).error_message = r.error_message := by
  unfold lineStep
  dsimp only
  by_cases h1 : (pyIn ("read:") (pyStrip line0) && pyIn ("IOPS=") (pyStrip line0)) = true
  · rw [if_pos h1]
    exact foldlM_err readPart readPart_err _ r
  · rw [if_neg h1]
    by_cases h2 : (pyIn ("write:") (pyStrip line0) && pyIn ("IOPS=") (pyStrip line0)) = true
    · rw [if_pos h2]
      exact foldlM_err writePart writePart_err _ r
    · rw [if_neg h2]
      rfl

theorem parse_fio_text_output_err (output : String) (r : TestResult) :
    (parse_fio_text_output output r).error_message = r.error_message := by
  unfold parse_fio_text_output
  have h := foldlM_err lineStep lineStep_err (pySplit output ("\n")) r
  rcases hh : (pySplit output ("\n")).foldlM lineStep r with rv | rv
  · rw [hh] at h
    exact h
  · rw [hh] at h
    dsimp only [resultOfT] at h
    exact h

theorem pyStartsWith_append (p s : String) : pyStartsWith (p ++ s) p = true := by
  unfold pyStartsWith
  rw [string_data_append, List.isPrefixOf_iff_prefix]
  exact List.prefix_append _ _

/-- C5 (amended): after a primary timeout, _run_fio_test performs exactly one
fallback invocation, built by rewriting the ioengine argument to sync and the
direct argument to 0, under the same timeout budget runtime + 60; a failing
fallback records the captured stderr (or the default failure text) as a
non-empty error_message with all metrics at zero; a fallback timeout records
测试超时 with all metrics at zero; and a fallback that exits 0 and whose output
parses without an escaping exception yields the parsed result with empty
error_message.  (The unamended claim fails when the fallback exits 0 but its
output raises an uncaught AttributeError while parsing: see
C5_fallback_counterexample.) -/
theorem C5_timeout_fallback (tt bs : String) (qd nj mix rt : ℤ) (fs : String) (beh : ExecBehavior)
    (htimeout : beh.first = .timedOut) :
    (fioInvocations beh tt bs qd nj mix rt fs =
      [(fioCommand tt bs qd nj mix rt fs, rt + 60),
       ((fioCommand tt bs qd nj mix rt fs).map fallbackSub, rt + 60)]) ∧
    (("--ioengine=sync") ∈ (fioCommand tt bs qd nj mix rt fs).map fallbackSub) ∧
    (("--direct=0") ∈ (fioCommand tt bs qd nj mix rt fs).map fallbackSub) ∧
    (∀ stderr, beh.second = .failure stderr →
      (run_fio_test beh tt bs qd nj mix rt fs).error_message =
          (if stderr = "" then "FIO命令执行失败" else stderr) ∧
      (run_fio_test beh tt bs qd nj mix rt fs).error_message ≠ "" ∧
      metricsZero (run_fio_test beh tt bs qd nj mix rt fs)) ∧
    (beh.second = .timedOut →
      (run_fio_test beh tt bs qd nj mix rt fs).error_message = "测试超时" ∧
      metricsZero (run_fio_test beh tt bs qd nj mix rt fs)) ∧
    (∀ out outputFile r1, beh.second = .success out outputFile →
      parsePhase out outputFile (initResult tt bs qd nj mix rt fs) = .ok r1 →
      run_fio_test beh tt bs qd nj mix rt fs = { r1 with error_message := "" }) := by
  have hio : fallbackSub (("--ioengine=") ++ (if pyLower fs = "9p" then "psync" else "libaio")) =
      "--ioengine=sync" := by
    have h1 := pyStartsWith_append ("--ioengine=") (if pyLower fs = "9p" then "psync" else "libaio")
    have h2 : pyStartsWith ("--ioengine=sync") ("--direct=") = false := by decide
    simp [fallbackSub, h1, h2]
  have hdir : fallbackSub (("--direct=") ++
      (if pyLower fs = "9p" ∧ (tt = "randread" ∨ tt = "randrw") then "0" else "1")) =
      "--direct=0" := by
    have h1 : pyStartsWith (("--direct=") ++
        (if pyLower fs = "9p" ∧ (tt = "randread" ∨ tt = "randrw") then "0" else "1"))
        ("--ioengine=") = false := by
      simp [pyStartsWith, string_data_append, List.isPrefixOf]
    have h2 := pyStartsWith_append ("--direct=")
      (if pyLower fs = "9p" ∧ (tt = "randread" ∨ tt = "randrw") then "0" else "1")
    simp [fallbackSub, h1, h2]
  refine ⟨?_, ?_, ?_, ?_, ?_, ?_⟩
  · unfold fioInvocations
    rw [htimeout]
  · refine List.mem_map.mpr ⟨("--ioengine=") ++ (if pyLower fs = "9p" then "psync" else "libaio"), ?_, hio⟩
    unfold fioCommand
    simp
  · refine List.mem_map.mpr ⟨("--direct=") ++
      (if pyLower fs = "9p" ∧ (tt = "randread" ∨ tt = "randrw") then "0" else "1"), ?_, hdir⟩
    unfold fioCommand
    simp
  · intro stderr h2
    unfold run_fio_test
    rw [htimeout, h2]
    refine ⟨rfl, ?_, ⟨rfl, rfl, rfl, rfl, rfl, rfl, rfl⟩⟩
    by_cases hs : stderr = ""
    · simp [hs]
    · simp [hs]
  · intro h2
    unfold run_fio_test
    rw [htimeout, h2]
    exact ⟨rfl, rfl, rfl, rfl, rfl, rfl, rfl, rfl⟩
  · intro out outputFile r1 h2 hp
    unfold run_fio_test
    rw [htimeout, h2]
    dsimp only
    rw [hp]

theorem withState_err {α} (r : TestResult) (x : Except PyErr α)
    (k : α → Except (PyErr × TestResult) TestResult)
    (hk : ∀ a, (resultOfE (k a)).error_message = r.error_message) :
    (resultOfE (withState r x k)).error_message = r.error_message := by
  cases x with
  | error e => rfl
  | ok a => exact hk a

theorem parseReadSectionE_err (job : JVal) (r : TestResult) :
    (resultOfE (parseReadSection job r)).error_message = r.error_message := by
  unfold parseReadSection
  apply withState_err
  intro rd
  by_cases hrd : rd.truthy = true
  · rw [if_pos hrd]
    apply withState_err
    intro v
    apply withState_err
    intro q
    apply withState_err
    intro vb
    apply withState_err
    intro qb
    apply withState_err
    intro vl
    apply withState_err
    intro vm
    apply withState_err
    intro qm
    rfl
  · rw [if_neg hrd]
    rfl

theorem parseWriteSectionE_err (job : JVal) (r : TestResult) :
    (resultOfE (parseWriteSection job r)).error_message = r.error_message := by
  unfold parseWriteSection
  apply withState_err
  intro wd
  by_cases hwd : wd.truthy = true
  · rw [if_pos hwd]
    apply withState_err
    intro v
    apply withState_err
    intro q
    apply withState_err
    intro vb
    apply withState_err
    intro qb
    apply withState_err
    intro vl
    apply withState_err
    intro vm
    apply withState_err
    intro qm
    rfl
  · rw [if_neg hwd]
    rfl

theorem parseFioJsonRaw_err (input : Option JVal) (r : TestResult) :
    (resultOfE (parseFioJsonRaw input r)).error_message = r.error_message := by
  cases input with
  | none => rfl
  | some data =>
    unfold parseFioJsonRaw
    apply withState_err
    intro jobs
    by_cases hj : jobs.truthy = true
    · rw [if_neg (not_not_intro hj)]
      apply withState_err
      intro job
      have hread := parseReadSectionE_err job r
      rcases h1 : parseReadSection job r with ⟨e1v, r1v⟩ | r1v
      · rw [h1] at hread
        exact hread
      · rw [h1] at hread
        dsimp only [resultOfE] at hread
        dsimp only
        have hwrite := parseWriteSectionE_err job r1v
        rcases h2 : parseWriteSection job r1v with ⟨e2v, r2v⟩ | r2v
        · rw [h2] at hwrite
          dsimp only [resultOfE] at hwrite ⊢
          exact hwrite.trans hread
        · rw [h2] at hwrite
          dsimp only [resultOfE] at hwrite ⊢
          exact hwrite.trans hread
    · rw [if_pos hj]
      rfl

theorem parse_fio_json_output_err (input : Option JVal) (r : TestResult) :
    (resultOfE (parse_fio_json_output input r)).error_message = r.error_message := by
  unfold parse_fio_json_output
  have hraw := parseFioJsonRaw_err input r
  rcases h : parseFioJsonRaw input r with ⟨e1v, r1v⟩ | r1v
  · rw [h] at hraw
    dsimp only [resultOfE] at hraw ⊢
    by_cases hc : caughtByJsonHandler e1v = true
    · simp only [hc, if_true]
      exact hraw
    · simp only [hc, if_false]
      exact hraw
  · rw [h] at hraw
    exact hraw

theorem parsePhase_err (out : FioOut) (outputFile : Option (Option JVal)) (r : TestResult) :
    (resultOfE (parsePhase out outputFile r)).error_message = r.error_message := by
  unfold parsePhase
  cases outputFile with
  | none => exact parse_fio_json_output_err _ _
  | some j =>
    dsimp only
    have h1 := parse_fio_json_output_err j r
    rcases h : parse_fio_json_output j r with ⟨e1v, r1v⟩ | r1v
    · rw [h] at h1
      dsimp only [resultOfE] at h1
      have h2 := parse_fio_json_output_err out.jsonView r1v
      exact h2.trans h1
    · rw [h] at h1
      exact h1

/-- C6 (amended): output parsing never raises to the caller of _run_fio_test,
and the failure kinds anticipated by the parser's except tuple — malformed JSON
text, or a decoded document with an absent or falsy jobs value — leave the
TestResult untouched and do not set error_message; however, a parse failure
escaping the except tuple (an AttributeError from a structurally alien
document) is absorbed by the executor's outer exception handler, which does set
error_message; a non-zero exit status always sets a non-empty error_message.
(The unamended claim — a parse failure never marks the result failed — fails on
such documents: see C6_parse_counterexample.) -/
theorem C6_parse_error_isolation (tt bs : String) (qd nj mix rt : ℤ) (fs : String) (beh : ExecBehavior) :
    (∀ r, parse_fio_json_output none r = .ok r) ∧
    (∀ (r : TestResult) (data jobs : JVal), dictGet data ("jobs") (.jarr []) = .ok jobs →
      jobs.truthy = false → parse_fio_json_output (some data) r = .ok r) ∧
    (∀ out outputFile r1, beh.first = .success out outputFile →
      parsePhase out outputFile (initResult tt bs qd nj mix rt fs) = .ok r1 →
      (run_fio_test beh tt bs qd nj mix rt fs).error_message = "") ∧
    (∀ out outputFile e r1, beh.first = .success out outputFile →
      parsePhase out outputFile (initResult tt bs qd nj mix rt fs) = .error (e, r1) →
      (run_fio_test beh tt bs qd nj mix rt fs).error_message = errMsg e ∧ errMsg e ≠ "") ∧
    (∀ stderr, beh.first = .failure stderr →
      (run_fio_test beh tt bs qd nj mix rt fs).error_message ≠ "") := by
  refine ⟨?_, ?_, ?_, ?_, ?_⟩
  · intro r
    rfl
  · intro r data jobs hdict hfalse
    unfold parse_fio_json_output parseFioJsonRaw withState
    dsimp only
    rw [hdict]
    dsimp only
    rw [if_pos (by simp [hfalse])]
  · intro out outputFile r1 h1 hp
    have herr := parsePhase_err out outputFile (initResult tt bs qd nj mix rt fs)
    rw [hp] at herr
    dsimp only [resultOfE] at herr
    unfold run_fio_test
    rw [h1]
    dsimp only
    rw [hp]
    dsimp only
    by_cases hz : r1.read_iops ≠ 0 ∨ r1.write_iops ≠ 0
    · rw [if_pos hz]
      exact herr
    · rw [if_neg hz]
      exact (parse_fio_text_output_err out.textView r1).trans herr
  · intro out outputFile e r1 h1 hp
    unfold run_fio_test
    rw [h1]
    dsimp only
    rw [hp]
    exact ⟨rfl, by cases e <;> decide⟩
  · intro stderr h1
    unfold run_fio_test
    rw [h1]
    dsimp only
    by_cases hs : stderr = ""
    · simp [hs]
    · simp [hs]

/-- Counterexample to C6 as stated: a zero-exit execution whose stdout decodes
to a document whose first job is a list, not a dict.  Python raises
AttributeError at job.get, which the except (JSONDecodeError, KeyError,
TypeError) tuple does not catch; the outer handler records it, so a pure parse
failure does mark the ExecutionResult as failed. -/
theorem C6_parse_counterexample :
    (run_fio_test ⟨.success ⟨some alienJobsDoc, ""⟩ none, .timedOut⟩
        "randread" "4k" 1 1 100 3 "ext4").error_message = errMsg .attrErr ∧
    errMsg PyErr.attrErr ≠ "" := by
  constructor
  · rfl
  · decide

/-- Counterexample to C5 as stated: the fallback exits 0, but its output file
is unreadable and its stdout decodes to a document whose first job is a list;
the escaping AttributeError is caught by the timeout handler, which records
测试超时 — so a successful fallback does not always yield an empty
error_message. -/
theorem C5_fallback_counterexample :
    (run_fio_test ⟨.timedOut, .success ⟨some alienJobsDoc, ""⟩ none⟩
        "randread" "4k" 1 1 100 3 "ext4").error_message = "测试超时" ∧
    (run_fio_test ⟨.timedOut, .success ⟨some alienJobsDoc, ""⟩ none⟩
        "randread" "4k" 1 1 100 3 "ext4").error_message ≠ "" := by
  have h : (run_fio_test ⟨.timedOut, .success ⟨some alienJobsDoc, ""⟩ none⟩
      "randread" "4k" 1 1 100 3 "ext4").error_message = "测试超时" := rfl
  exact ⟨h, by rw [h]; decide⟩

/-- Witness for C5 at a concrete timed-out primary with failing fallback. -/
theorem C5_timeout_fallback_witness :
    fioInvocations ⟨.timedOut, .failure ("boom")⟩ "randread" "4k" 1 1 100 3 "ext4" =
      [(fioCommand "randread" "4k" 1 1 100 3 "ext4", 3 + 60),
       ((fioCommand "randread" "4k" 1 1 100 3 "ext4").map fallbackSub, 3 + 60)] ∧
    (run_fio_test ⟨.timedOut, .failure ("boom")⟩
        "randread" "4k" 1 1 100 3 "ext4").error_message = "boom" ∧
    metricsZero (run_fio_test ⟨.timedOut, .failure ("boom")⟩
      "randread" "4k" 1 1 100 3 "ext4") := by
  have h := C5_timeout_fallback "randread" "4k" 1 1 100 3 "ext4"
    ⟨.timedOut, .failure ("boom")⟩ rfl
  have h4 := h.2.2.2.1 ("boom") rfl
  refine ⟨h.1, ?_, h4.2.2⟩
  rw [h4.1]
  decide

/-- Witness for C6 at a concrete zero-exit execution with undecodable stdout. -/
theorem C6_parse_error_isolation_witness :
    parse_fio_json_output none (initResult "randread" "4k" 1 1 100 3 "ext4") =
      .ok (initResult "randread" "4k" 1 1 100 3 "ext4") ∧
    (run_fio_test ⟨.success ⟨none, ""⟩ none, .timedOut⟩
        "randread" "4k" 1 1 100 3 "ext4").error_message = "" := by
  have h := C6_parse_error_isolation "randread" "4k" 1 1 100 3 "ext4"
    ⟨.success ⟨none, ""⟩ none, .timedOut⟩
  exact ⟨h.1 _, h.2.2.1 ⟨none, ""⟩ none (initResult "randread" "4k" 1 1 100 3 "ext4") rfl rfl⟩

theorem pyFloat_100 : pyFloat ("100") = some 100 := by
  have h : pyFloat ("100") =
      some ((1 : ℚ) * ((digitsToNat (['1', '0', '0'] : List Char) : ℕ) : ℚ) *
        (10 : ℚ) ^ ((0 : ℤ)).toNat) := rfl
  rw [h, show digitsToNat (['1', '0', '0'] : List Char) = 100 from by decide]
  norm_num

theorem pyFloat_3 : pyFloat ("3") = some 3 := by
  have h : pyFloat ("3") =
      some ((1 : ℚ) * ((digitsToNat (['3'] : List Char) : ℕ) : ℚ) *
        (10 : ℚ) ^ ((0 : ℤ)).toNat) := rfl
  rw [h, show digitsToNat (['3'] : List Char) = 3 from by decide]
  norm_num

theorem pyFloat_2048 : pyFloat ("2048") = some 2048 := by
  have h : pyFloat ("2048") =
      some ((1 : ℚ) * ((digitsToNat (['2', '0', '4', '8'] : List Char) : ℕ) : ℚ) *
        (10 : ℚ) ^ ((0 : ℤ)).toNat) := rfl
  rw [h, show digitsToNat (['2', '0', '4', '8'] : List Char) = 2048 from by decide]
  norm_num

/-- C7 (amended): in the text fallback parser, a part of a read: (write:) line
carrying an IOPS= token sets read_iops (write_iops) from the parsed token; a
BW= token with a MiB/s suffix is taken as-is and one with a KiB/s suffix is
divided by 1024; any other suffix — in particular GiB/s — matches no branch and
leaves the bandwidth field unchanged.  (The unamended claim, which requires
GiB/s to be multiplied by 1024, fails: see C7_text_counterexample.) -/
theorem C7_text_unit_scaling :
    (∀ (r : TestResult) (part : String) (q : ℚ),
      pyIn ("IOPS=") (pyStrip part) = true →
      pyFloat (splitEq1 (pyStrip part)) = some q →
      readPart r part = .ok { r with read_iops := q }) ∧
    (∀ (r : TestResult) (part : String) (q : ℚ),
      pyIn ("IOPS=") (pyStrip part) = false →
      pyIn ("BW=") (pyStrip part) = true →
      pyIn ("MiB/s") (splitEq1 (pyStrip part)) = true →
      pyFloat (pyReplace (splitEq1 (pyStrip part)) ("MiB/s") ("")) = some q →
      readPart r part = .ok { r with read_mbps := q }) ∧
    (∀ (r : TestResult) (part : String) (q : ℚ),
      pyIn ("IOPS=") (pyStrip part) = false →
      pyIn ("BW=") (pyStrip part) = true →
      pyIn ("MiB/s") (splitEq1 (pyStrip part)) = false →
      pyIn ("KiB/s") (splitEq1 (pyStrip part)) = true →
      pyFloat (pyReplace (splitEq1 (pyStrip part)) ("KiB/s") ("")) = some q →
      readPart r part = .ok { r with read_mbps := q / 1024 }) ∧
    (∀ (r : TestResult) (part : String),
      pyIn ("IOPS=") (pyStrip part) = false →
      pyIn ("BW=") (pyStrip part) = true →
      pyIn ("MiB/s") (splitEq1 (pyStrip part)) = false →
      pyIn ("KiB/s") (splitEq1 (pyStrip part)) = false →
      readPart r part = .ok r) ∧
    (∀ (r : TestResult) (part : String) (q : ℚ),
      pyIn ("IOPS=") (pyStrip part) = true →
      pyFloat (splitEq1 (pyStrip part)) = some q →
      writePart r part = .ok { r with write_iops := q }) ∧
    (∀ (r : TestResult) (part : String) (q : ℚ),
      pyIn ("IOPS=") (pyStrip part) = false →
      pyIn ("BW=") (pyStrip part) = true →
      pyIn ("MiB/s") (splitEq1 (pyStrip part)) = true →
      pyFloat (pyReplace (splitEq1 (pyStrip part)) ("MiB/s") ("")) = some q →
      writePart r part = .ok { r with write_mbps := q }) ∧
    (∀ (r : TestResult) (part : String) (q : ℚ),
      pyIn ("IOPS=") (pyStrip part) = false →
      pyIn ("BW=") (pyStrip part) = true →
      pyIn ("MiB/s") (splitEq1 (pyStrip part)) = false →
      pyIn ("KiB/s") (splitEq1 (pyStrip part)) = true →
      pyFloat (pyReplace (splitEq1 (pyStrip part)) ("KiB/s") ("")) = some q →
      writePart r part = .ok { r with write_mbps := q / 1024 }) ∧
    (∀ (r : TestResult) (part : String),
      pyIn ("IOPS=") (pyStrip part) = false →
      pyIn ("BW=") (pyStrip part) = true →
      pyIn ("MiB/s") (splitEq1 (pyStrip part)) = false →
      pyIn ("KiB/s") (splitEq1 (pyStrip part)) = false →
      writePart r part = .ok r) := by
  refine ⟨?_, ?_, ?_, ?_, ?_, ?_, ?_, ?_⟩
  · intro r part q h1 h2
    unfold readPart
    dsimp only
    rw [if_pos h1, h2]
  · intro r part q h1 h2 h3 h4
    unfold readPart bwToMbps
    dsimp only
    rw [if_neg (by simp [h1]), if_pos h2, if_pos h3, h4]
  · intro r part q h1 h2 h3 h4 h5
    unfold readPart bwToMbps
    dsimp only
    rw [if_neg (by simp [h1]), if_pos h2, if_neg (by simp [h3]), if_pos h4, h5]
    rfl
  · intro r part h1 h2 h3 h4
    unfold readPart bwToMbps
    dsimp only
    rw [if_neg (by simp [h1]), if_pos h2, if_neg (by simp [h3]), if_neg (by simp [h4])]
  · intro r part q h1 h2
    unfold writePart
    dsimp only
    rw [if_pos h1, h2]
  · intro r part q h1 h2 h3 h4
    unfold writePart bwToMbps
    dsimp only
    rw [if_neg (by simp [h1]), if_pos h2, if_pos h3, h4]
  · intro r part q h1 h2 h3 h4 h5
    unfold writePart bwToMbps
    dsimp only
    rw [if_neg (by simp [h1]), if_pos h2, if_neg (by simp [h3]), if_pos h4, h5]
    rfl
  · intro r part h1 h2 h3 h4
    unfold writePart bwToMbps
    dsimp only
    rw [if_neg (by simp [h1]), if_pos h2, if_neg (by simp [h3]), if_neg (by simp [h4])]

/-- Counterexample to C7 as stated: on the line read: IOPS=100, BW=1GiB/s the
claimed GiB/s scaling would set read_mbps to 1024, but the parser has no GiB/s
branch and leaves read_mbps at 0. -/
theorem C7_text_counterexample :
    (parse_fio_text_output ("read: IOPS=100, BW=1GiB/s")
        (initResult "randread" "4k" 1 1 100 3 "ext4")).read_mbps = 0 ∧
    (parse_fio_text_output ("read: IOPS=100, BW=1GiB/s")
        (initResult "randread" "4k" 1 1 100 3 "ext4")).read_mbps ≠ 1024 := by
  have h : (parse_fio_text_output ("read: IOPS=100, BW=1GiB/s")
      (initResult "randread" "4k" 1 1 100 3 "ext4")).read_mbps = 0 := rfl
  exact ⟨h, by rw [h]; norm_num⟩

/-- Witness for C7 at concrete IOPS=, MiB/s, KiB/s and GiB/s tokens. -/
theorem C7_text_unit_scaling_witness :
    readPart (initResult "randread" "4k" 1 1 100 3 "ext4") ("IOPS=100") =
      .ok { initResult "randread" "4k" 1 1 100 3 "ext4" with read_iops := 100 } ∧
    readPart (initResult "randread" "4k" 1 1 100 3 "ext4") ("BW=3MiB/s") =
      .ok { initResult "randread" "4k" 1 1 100 3 "ext4" with read_mbps := 3 } ∧
    writePart (initResult "randread" "4k" 1 1 100 3 "ext4") ("BW=2048KiB/s") =
      .ok { initResult "randread" "4k" 1 1 100 3 "ext4" with write_mbps := 2048 / 1024 } ∧
    readPart (initResult "randread" "4k" 1 1 100 3 "ext4") ("BW=1GiB/s") =
      .ok (initResult "randread" "4k" 1 1 100 3 "ext4") := by
  refine ⟨?_, ?_, ?_, ?_⟩
  · refine C7_text_unit_scaling.1 _ _ _ (by decide) ?_
    rw [show splitEq1 (pyStrip ("IOPS=100")) = "100" from by decide]
    exact pyFloat_100
  · refine C7_text_unit_scaling.2.1 _ _ _ (by decide) (by decide) (by decide) ?_
    rw [show pyReplace (splitEq1 (pyStrip ("BW=3MiB/s"))) ("MiB/s") ("") = "3" from by decide]
    exact pyFloat_3
  · refine C7_text_unit_scaling.2.2.2.2.2.2.1 _ _ _ (by decide) (by decide) (by decide) (by decide) ?_
    rw [show pyReplace (splitEq1 (pyStrip ("BW=2048KiB/s"))) ("KiB/s") ("") = "2048" from by decide]
    exact pyFloat_2048
  · exact C7_text_unit_scaling.2.2.2.1 _ _ (by decide) (by decide) (by decide) (by decide)

theorem commonNames_nodup (a b : List CaseOut) : (commonNames a b).Nodup := by
  unfold commonNames
  exact ((List.perm_insertionSort _ _).nodup_iff).mpr
    ((List.nodup_dedup _).filter _)

theorem commonNames_mem (a b : List CaseOut) (n : String) :
    n ∈ commonNames a b ↔
      n ∈ a.map (fun c => c.name) ∧ n ∈ b.map (fun c => c.name) := by
  unfold commonNames
  rw [(List.perm_insertionSort _ _).mem_iff, List.mem_filter, List.mem_dedup]
  constructor
  · rintro ⟨h1, h2⟩
    exact ⟨h1, List.elem_iff.mp h2⟩
  · rintro ⟨h1, h2⟩
    exact ⟨h1, List.elem_iff.mpr h2⟩

theorem buildMap_found (cs : List CaseOut) (n : String)
    (h : n ∈ cs.map (fun c => c.name)) :
    ∃ c, buildMap cs n = some c ∧ c.name = n := by
  obtain ⟨c, hc, hname⟩ := List.mem_map.mp h
  have hsome : (cs.reverse.find? (fun c => c.name == n)).isSome = true :=
    List.find?_isSome.mpr ⟨c, List.mem_reverse.mpr hc, by simp [hname]⟩
  obtain ⟨c', hc'⟩ := Option.isSome_iff_exists.mp hsome
  refine ⟨c', hc', ?_⟩
  have hp := List.find?_some hc'
  simpa using hp

theorem countP_filterMap_name (g : String → Option CmpItem) (n : String) :
    ∀ l : List String, (∀ x ∈ l, ∃ it, g x = some it ∧ it.name = x) →
      (l.filterMap g).countP (fun it => it.name == n) = l.count n := by
  intro l
  induction l with
  | nil => intro _; rfl
  | cons x xs ih =>
    intro hall
    obtain ⟨it, hgx, hname⟩ := hall x (List.mem_cons_self x xs)
    rw [List.filterMap_cons, hgx, List.countP_cons, List.count_cons,
      ih (fun y hy => hall y (List.mem_cons_of_mem x hy))]
    subst hname
    by_cases he : it.name = n
    · simp [he]
    · simp [he, Ne.symm he]

theorem basicMetricFacts_metric (x y : ℚ) : basicMetricFacts (metric x y) := by
  refine ⟨rfl, ?_, ?_⟩
  · intro h
    rw [show (metric x y).baseline = x from rfl] at h
    simp [metric, h]
  · intro h
    rw [show (metric x y).baseline = x from rfl] at h
    simp [metric, h]

theorem basicMetricFacts_attachTrend (m : MetricCmp) (h : basicMetricFacts m) :
    basicMetricFacts (attachTrend m) := h

theorem latTrendFact_attachTrend (m : MetricCmp) : latTrendFact (attachTrend m) := rfl

/-- C4: compare_cases returns exactly one item per case name present in both
input lists and none for names present in only one; every metric of every item
carries delta = current - baseline and delta_pct = delta/baseline*100 exactly
when the baseline is non-zero (none when it is zero); only the two latency
metrics carry a trend tag, equal to improved iff delta < 0, declined iff
delta > 0 and flat iff delta = 0, while the IOPS and bandwidth metrics carry no
trend tag. -/
theorem C4_compare_semantics (a b : List CaseOut) :
    (∀ n : String, (compare_cases a b).countP (fun it => it.name == n) =
      if n ∈ a.map (fun c => c.name) ∧ n ∈ b.map (fun c => c.name) then 1 else 0) ∧
    (∀ it ∈ compare_cases a b,
      (basicMetricFacts it.read_iops ∧ it.read_iops.trend = none) ∧
      (basicMetricFacts it.write_iops ∧ it.write_iops.trend = none) ∧
      (basicMetricFacts it.read_bw ∧ it.read_bw.trend = none) ∧
      (basicMetricFacts it.write_bw ∧ it.write_bw.trend = none) ∧
      (basicMetricFacts it.read_lat_us ∧ latTrendFact it.read_lat_us) ∧
      (basicMetricFacts it.write_lat_us ∧ latTrendFact it.write_lat_us)) := by
  have hg : ∀ x ∈ commonNames a b,
      ∃ it, (match buildMap a x, buildMap b x with
             | some ca, some cb => some (cmpItem x ca cb)
             | _, _ => none) = some it ∧ it.name = x := by
    intro x hx
    have hx2 := (commonNames_mem a b x).mp hx
    obtain ⟨ca, hca, _⟩ := buildMap_found a x hx2.1
    obtain ⟨cb, hcb, _⟩ := buildMap_found b x hx2.2
    exact ⟨cmpItem x ca cb, by rw [hca, hcb], rfl⟩
  constructor
  · intro n
    unfold compare_cases
    rw [countP_filterMap_name _ n _ hg]
    by_cases hmem : n ∈ commonNames a b
    · rw [List.count_eq_one_of_mem (commonNames_nodup a b) hmem,
        if_pos ((commonNames_mem a b n).mp hmem)]
    · rw [List.count_eq_zero_of_not_mem hmem, if_neg (fun hc =>
        hmem ((commonNames_mem a b n).mpr hc))]
  · intro it hit
    unfold compare_cases at hit
    rw [List.mem_filterMap] at hit
    obtain ⟨x, hx, hgx⟩ := hit
    rcases hA : buildMap a x with _ | ca
    · rw [hA] at hgx
      rcases hB : buildMap b x with _ | cb <;> rw [hB] at hgx <;> cases hgx
    · rw [hA] at hgx
      rcases hB : buildMap b x with _ | cb
      · rw [hB] at hgx
        cases hgx
      · rw [hB] at hgx
        injection hgx with hgx
        subst hgx
        exact ⟨⟨basicMetricFacts_metric _ _, rfl⟩, ⟨basicMetricFacts_metric _ _, rfl⟩,
          ⟨basicMetricFacts_metric _ _, rfl⟩, ⟨basicMetricFacts_metric _ _, rfl⟩,
          ⟨basicMetricFacts_attachTrend _ (basicMetricFacts_metric _ _),
            latTrendFact_attachTrend _⟩,
          ⟨basicMetricFacts_attachTrend _ (basicMetricFacts_metric _ _),
            latTrendFact_attachTrend _⟩⟩

/-- Witness for C4 on the concrete baseline/current example: case X present in
both sides yields one item, case A present only in the baseline yields none;
read iops 1000 to 1200 gives delta_pct 20 with no trend tag; read latency 100
to 80 is tagged improved; the zero write-bandwidth baseline yields no
percentage. -/
theorem C4_compare_semantics_witness :
    (compare_cases cmpBaseCases cmpCurCases).countP (fun it => it.name == "X") = 1 ∧
    (compare_cases cmpBaseCases cmpCurCases).countP (fun it => it.name == "A") = 0 ∧
    (cmpItem ("X") caseXbase caseXcur).read_iops.trend = none ∧
    (cmpItem ("X") caseXbase caseXcur).read_lat_us.trend = some ("improved") ∧
    (cmpItem ("X") caseXbase caseXcur).read_iops.delta_pct = some 20 ∧
    (cmpItem ("X") caseXbase caseXcur).write_bw.delta_pct = none := by
  have h := C4_compare_semantics cmpBaseCases cmpCurCases
  have hm : cmpItem ("X") caseXbase caseXcur ∈ compare_cases cmpBaseCases cmpCurCases :=
    List.mem_cons_self _ _
  have hf := h.2 _ hm
  have hbase : (cmpItem ("X") caseXbase caseXcur).read_iops.baseline = 1000 := rfl
  have hcur : (cmpItem ("X") caseXbase caseXcur).read_iops.current = 1200 := rfl
  have hwbase : (cmpItem ("X") caseXbase caseXcur).write_bw.baseline = 0 := rfl
  refine ⟨?_, ?_, hf.1.2, ?_, ?_, ?_⟩
  · rw [h.1 ("X"), if_pos (by decide)]
  · rw [h.1 ("A"), if_neg (by decide)]
  · have ht := hf.2.2.2.2.1.2
    unfold latTrendFact at ht
    rw [ht]
    norm_num [cmpItem, metric, attachTrend, caseXbase, caseXcur]
  · have hb := hf.1.1
    rw [hb.2.2 (by rw [hbase]; norm_num), hb.1, hbase, hcur]
    norm_num
  · have hb := hf.2.2.2.1.1
    exact hb.2.1 hwbase

theorem find?_key_cons_pos (q : String × AggEntry) (l : List (String × AggEntry)) (n : String)
    (h : (q.1 == n) = true) :
    (q :: l).find? (fun p => p.1 == n) = some q :=
  List.find?_cons_of_pos _ h

theorem find?_key_cons_neg (q : String × AggEntry) (l : List (String × AggEntry)) (n : String)
    (h : ¬ (q.1 == n) = true) :
    (q :: l).find? (fun p => p.1 == n) = l.find? (fun p => p.1 == n) :=
  List.find?_cons_of_neg _ h

theorem find?_updateMap (st : List (String × AggEntry)) (n : String) (c : CaseIn) :
    (st.map fun p => if p.1 == n then (p.1, addCase p.2 c) else p).find?
      (fun p => p.1 == n) =
    (st.find? (fun p => p.1 == n)).map (fun p => (p.1, addCase p.2 c)) := by
  induction st with
  | nil => rfl
  | cons p st ih =>
    rw [List.map_cons]
    by_cases hk : (p.1 == n) = true
    · rw [if_pos hk, find?_key_cons_pos (p.1, addCase p.2 c) _ _ hk,
        find?_key_cons_pos p _ _ hk]
      rfl
    · rw [if_neg hk, find?_key_cons_neg p _ _ hk, find?_key_cons_neg p _ _ hk]
      exact ih

theorem find?_updateMap_ne (st : List (String × AggEntry)) (m n : String) (c : CaseIn)
    (hnm : (m == n) = false) :
    (st.map fun p => if p.1 == m then (p.1, addCase p.2 c) else p).find?
      (fun p => p.1 == n) = st.find? (fun p => p.1 == n) := by
  induction st with
  | nil => rfl
  | cons p st ih =>
    rw [List.map_cons]
    by_cases hk : (p.1 == m) = true
    · have hpn : ¬ (p.1 == n) = true := by
        rw [beq_iff_eq.mp hk]
        simp [hnm]
      rw [if_pos hk, find?_key_cons_neg (p.1, addCase p.2 c) _ _ hpn,
        find?_key_cons_neg p _ _ hpn]
      exact ih
    · rw [if_neg hk]
      by_cases hpn : (p.1 == n) = true
      · rw [find?_key_cons_pos p _ _ hpn, find?_key_cons_pos p _ _ hpn]
      · rw [find?_key_cons_neg p _ _ hpn, find?_key_cons_neg p _ _ hpn]
        exact ih

theorem stepCase_find? (st : List (String × AggEntry)) (c : CaseIn) (n : String) :
    (stepCase st c).find? (fun p => p.1 == n) =
      if caseKey c == some n then
        some (n, addCase (((st.find? (fun p => p.1 == n)).map Prod.snd).getD {}) c)
      else st.find? (fun p => p.1 == n) := by
  rcases hk : caseKey c with _ | m
  · rw [stepCase, hk]
    rfl
  · rw [stepCase, hk]
    dsimp only
    by_cases hmn : (m == n) = true
    · have hmn' : m = n := beq_iff_eq.mp hmn
      subst hmn'
      by_cases hany : (st.any fun p => p.1 == m) = true
      · rw [if_pos hany, find?_updateMap]
        rw [if_pos (show ((some m == some m) : Bool) = true from by simp)]
        obtain ⟨x, hxmem, hxp⟩ := List.any_eq_true.mp hany
        have hsome : (st.find? (fun p => p.1 == m)).isSome = true := by
          rw [List.find?_isSome]
          exact ⟨x, hxmem, hxp⟩
        obtain ⟨q, hq⟩ := Option.isSome_iff_exists.mp hsome
        have hq1 : q.1 = m := by
          have hp := List.find?_some hq
          simpa using hp
        rw [hq]
        simp [hq1]
      · rw [if_neg hany, find?_updateMap, List.find?_append]
        have hf : (st.any fun p => p.1 == m) = false := by
          cases hb : (st.any fun p => p.1 == m)
          · rfl
          · exact absurd hb hany
        have hnone : st.find? (fun p => p.1 == m) = none := by
          rw [List.find?_eq_none]
          exact List.any_eq_false.mp hf
        rw [hnone, Option.none_or, find?_key_cons_pos (m, ({} : AggEntry)) _ _ (by simp)]
        rw [if_pos (show ((some m == some m) : Bool) = true from by simp)]
        rfl
    · by_cases hany : (st.any fun p => p.1 == m) = true
      · rw [if_pos hany, find?_updateMap_ne _ _ _ _ (by simpa using hmn)]
        rw [if_neg (show ¬ ((some m == some n) : Bool) = true from by simpa using hmn)]
      · rw [if_neg hany, find?_updateMap_ne _ _ _ _ (by simpa using hmn), List.find?_append,
          find?_key_cons_neg (m, ({} : AggEntry)) _ _ (by simpa using hmn)]
        rw [if_neg (show ¬ ((some m == some n) : Bool) = true from by simpa using hmn)]
        cases st.find? (fun p => p.1 == n) <;> rfl

theorem foldl_stepCase_find? :
    ∀ (cs : List CaseIn) (st : List (String × AggEntry)) (n : String),
      ((cs.foldl stepCase st).find? (fun p => p.1 == n)) =
        match st.find? (fun p => p.1 == n) with
        | some p => some (n, (cs.filter (fun c => caseKey c == some n)).foldl addCase p.2)
        | none =>
          if (cs.filter (fun c => caseKey c == some n)) = [] then none
          else some (n, (cs.filter (fun c => caseKey c == some n)).foldl addCase {}) := by
  intro cs
  induction cs with
  | nil =>
    intro st n
    rcases h : st.find? (fun p => p.1 == n) with _ | p
    · simp [h]
    · have hp1 : p.1 = n := by
        have hp := List.find?_some h
        simpa using hp
      rw [List.foldl_nil, h]
      dsimp only [List.filter_nil, List.foldl_nil]
      rw [← hp1]
  | cons c cs ih =>
    intro st n
    rw [List.foldl_cons, ih (stepCase st c) n, stepCase_find?, List.filter_cons]
    by_cases hc : (caseKey c == some n) = true
    · rw [if_pos hc, if_pos hc]
      rcases h : st.find? (fun p => p.1 == n) with _ | p
      · rw [h]
        dsimp only
        simp only [Option.map_none', Option.getD_none]
        rw [if_neg (List.cons_ne_nil _ _), List.foldl_cons]
      · rw [h]
        dsimp only
        simp only [Option.map_some', Option.getD_some]
        rw [List.foldl_cons]
    · rw [if_neg hc, if_neg hc]

theorem allCaseRecords_nil : allCaseRecords [] = [] := rfl

theorem allCaseRecords_cons_none (fs : List (Option (List CaseIn))) :
    allCaseRecords (none :: fs) = allCaseRecords fs := rfl

theorem allCaseRecords_cons_some (cs : List CaseIn) (fs : List (Option (List CaseIn))) :
    allCaseRecords (some cs :: fs) = cs ++ allCaseRecords fs := by
  simp [allCaseRecords]

theorem foldl_stepFile_eq :
    ∀ (files : List (Option (List CaseIn))) (st : List (String × AggEntry)),
      files.foldl stepFile st = (allCaseRecords files).foldl stepCase st := by
  intro files
  induction files with
  | nil => intro st; rfl
  | cons f fs ih =>
    intro st
    cases f with
    | none =>
      rw [List.foldl_cons, allCaseRecords_cons_none]
      exact ih st
    | some cs =>
      rw [List.foldl_cons, allCaseRecords_cons_some, List.foldl_append]
      exact ih (cs.foldl stepCase st)

theorem stepCase_fst_eq (st : List (String × AggEntry)) (c : CaseIn) :
    (stepCase st c).map Prod.fst = st.map Prod.fst ∨
      (stepCase st c).map Prod.fst = st.map Prod.fst ++ [(caseKey c).getD ("")] := by
  unfold stepCase
  rcases h : caseKey c with _ | n
  · exact Or.inl rfl
  · dsimp only
    have hmapfix : ∀ (l : List (String × AggEntry)),
        (l.map fun p => if p.1 == n then (p.1, addCase p.2 c) else p).map Prod.fst =
          l.map Prod.fst := by
      intro l
      rw [List.map_map]
      refine List.map_congr_left ?_
      intro p _
      simp only [Function.comp_apply]
      by_cases hp : (p.1 == n) = true
      · rw [if_pos hp]
      · rw [if_neg hp]
    by_cases hany : (st.any fun p => p.1 == n) = true
    · rw [if_pos hany, hmapfix]
      exact Or.inl rfl
    · rw [if_neg hany, hmapfix, List.map_append]
      exact Or.inr rfl

theorem stepCase_keys_nodup (st : List (String × AggEntry)) (c : CaseIn)
    (hnd : (st.map Prod.fst).Nodup) : ((stepCase st c).map Prod.fst).Nodup := by
  unfold stepCase
  rcases h : caseKey c with _ | n
  · exact hnd
  · dsimp only
    have hmapfix : ∀ (l : List (String × AggEntry)),
        (l.map fun p => if p.1 == n then (p.1, addCase p.2 c) else p).map Prod.fst =
          l.map Prod.fst := by
      intro l
      rw [List.map_map]
      refine List.map_congr_left ?_
      intro p _
      simp only [Function.comp_apply]
      by_cases hp : (p.1 == n) = true
      · rw [if_pos hp]
      · rw [if_neg hp]
    by_cases hany : (st.any fun p => p.1 == n) = true
    · rw [if_pos hany, hmapfix]
      exact hnd
    · rw [if_neg hany, hmapfix, List.map_append]
      have hnot : n ∉ st.map Prod.fst := by
        intro hmem
        obtain ⟨p, hpmem, hpn⟩ := List.mem_map.mp hmem
        have : st.any (fun p => p.1 == n) = true :=
          List.any_eq_true.mpr ⟨p, hpmem, by simp [hpn]⟩
        exact hany this
      simp only [List.map_cons, List.map_nil]
      exact List.Nodup.append hnd (List.nodup_singleton n)
        (by simpa [List.disjoint_singleton] using hnot)

theorem foldl_stepCase_keys_nodup :
    ∀ (cs : List CaseIn) (st : List (String × AggEntry)),
      (st.map Prod.fst).Nodup → ((cs.foldl stepCase st).map Prod.fst).Nodup := by
  intro cs
  induction cs with
  | nil => intro st h; exact h
  | cons c cs ih =>
    intro st h
    rw [List.foldl_cons]
    exact ih (stepCase st c) (stepCase_keys_nodup st c h)

theorem find?_eq_of_mem_nodup :
    ∀ (st : List (String × AggEntry)), ((st.map Prod.fst).Nodup) →
      ∀ (p : String × AggEntry), p ∈ st → st.find? (fun q => q.1 == p.1) = some p := by
  intro st
  induction st with
  | nil => intro _ p hp; exact absurd hp (List.not_mem_nil p)
  | cons q t ih =>
    intro hnd p hp
    by_cases hqp : (q.1 == p.1) = true
    · rw [find?_key_cons_pos q t p.1 hqp]
      rcases List.mem_cons.mp hp with heq | hmem
      · rw [heq]
      · exfalso
        have hq1 : q.1 = p.1 := by simpa using hqp
        have : q.1 ∈ t.map Prod.fst := hq1 ▸ List.mem_map_of_mem Prod.fst hmem
        exact (List.nodup_cons.mp (by simpa using hnd)).1 this
    · rw [find?_key_cons_neg q t p.1 hqp]
      rcases List.mem_cons.mp hp with heq | hmem
      · exact absurd (by rw [heq]; simp) hqp
      · exact ih (List.nodup_cons.mp (by simpa using hnd)).2 p hmem

theorem foldl_addCase_fields :
    ∀ (cs : List CaseIn) (e : AggEntry),
      (cs.foldl addCase e).read_iops
          = e.read_iops + (cs.map (fun c => c.read.iops.getD 0)).sum ∧
      (cs.foldl addCase e).read_bw
          = e.read_bw + (cs.map (fun c => c.read.bw_MBps.getD 0)).sum ∧
      (cs.foldl addCase e).read_lat_sum
          = e.read_lat_sum + (cs.filterMap (fun c => c.read.lat_us)).sum ∧
      (cs.foldl addCase e).read_cnt
          = e.read_cnt + (cs.filterMap (fun c => c.read.lat_us)).length ∧
      (cs.foldl addCase e).write_iops
          = e.write_iops + (cs.map (fun c => c.write.iops.getD 0)).sum ∧
      (cs.foldl addCase e).write_bw
          = e.write_bw + (cs.map (fun c => c.write.bw_MBps.getD 0)).sum ∧
      (cs.foldl addCase e).write_lat_sum
          = e.write_lat_sum + (cs.filterMap (fun c => c.write.lat_us)).sum ∧
      (cs.foldl addCase e).write_cnt
          = e.write_cnt + (cs.filterMap (fun c => c.write.lat_us)).length := by
  intro cs
  induction cs with
  | nil =>
    intro e
    simp
  | cons c cs ih =>
    intro e
    obtain ⟨h1, h2, h3, h4, h5, h6, h7, h8⟩ := ih (addCase e c)
    rw [List.foldl_cons]
    refine ⟨?_, ?_, ?_, ?_, ?_, ?_, ?_, ?_⟩
    · rw [h1]
      simp [addCase]
      ring
    · rw [h2]
      simp [addCase]
      ring
    · rw [h3, List.filterMap_cons]
      rcases hv : c.read.lat_us with _ | v
      · simp [addCase, hv]
      · simp [addCase, hv]
        ring
    · rw [h4, List.filterMap_cons]
      rcases hv : c.read.lat_us with _ | v
      · simp [addCase, hv]
      · simp [addCase, hv]
        omega
    · rw [h5]
      simp [addCase]
      ring
    · rw [h6]
      simp [addCase]
      ring
    · rw [h7, List.filterMap_cons]
      rcases hv : c.write.lat_us with _ | v
      · simp [addCase, hv]
      · simp [addCase, hv]
        ring
    · rw [h8, List.filterMap_cons]
      rcases hv : c.write.lat_us with _ | v
      · simp [addCase, hv]
      · simp [addCase, hv]
        omega

theorem mem_aggregate_eq (files : List (Option (List CaseIn))) (c : CaseOut)
    (hc : c ∈ aggregate_cases files) :
    c = finalizeEntry (c.name, (contributions files c.name).foldl addCase {}) ∧
    contributions files c.name ≠ [] := by
  unfold aggregate_cases at hc
  have hperm := List.perm_insertionSort (fun x y => strLe x.name y.name = true)
    ((files.foldl stepFile []).map finalizeEntry)
  have hc2 : c ∈ (files.foldl stepFile []).map finalizeEntry := hperm.mem_iff.mp hc
  obtain ⟨p, hpmem, hpc⟩ := List.mem_map.mp hc2
  have hstate : files.foldl stepFile [] = (allCaseRecords files).foldl stepCase [] :=
    foldl_stepFile_eq files []
  rw [hstate] at hpmem
  have hnd := foldl_stepCase_keys_nodup (allCaseRecords files) [] (by simp)
  have hfind := find?_eq_of_mem_nodup _ hnd p hpmem
  have hchar := foldl_stepCase_find? (allCaseRecords files) [] p.1
  rw [List.find?_nil] at hchar
  dsimp only at hchar
  rw [hfind] at hchar
  have hcontr : contributions files p.1
      = (allCaseRecords files).filter (fun x => caseKey x == some p.1) := rfl
  have hname : c.name = p.1 := by rw [← hpc]; rfl
  by_cases hemp : (allCaseRecords files).filter (fun x => caseKey x == some p.1) = []
  · rw [if_pos hemp] at hchar
    exact absurd hchar (by simp)
  · rw [if_neg hemp] at hchar
    have hp2 : p = (p.1,
        ((allCaseRecords files).filter (fun x => caseKey x == some p.1)).foldl addCase {}) :=
      Option.some_inj.mp hchar
    refine ⟨?_, ?_⟩
    · rw [hname, ← hpc, hcontr]
      exact congrArg finalizeEntry hp2
    · rw [hname, hcontr]
      exact hemp

/-- C3: every case emitted by aggregate_cases carries, for each of read and
write, iops and bw_MBps equal to the unconditional sums over all records of
the same case name across all readable files, while lat_us equals the sum of
the contributed lat_us values divided by the number of contributing records
that carry a lat_us key for that direction (never by the file count). -/
theorem C3_aggregate_sums (files : List (Option (List CaseIn))) (c : CaseOut)
    (hc : c ∈ aggregate_cases files) :
    c.read.iops = readIopsSum files c.name ∧
    c.read.bw_MBps = readBwSum files c.name ∧
    c.write.iops = writeIopsSum files c.name ∧
    c.write.bw_MBps = writeBwSum files c.name ∧
    (readLatVals files c.name ≠ [] →
      c.read.lat_us
        = (readLatVals files c.name).sum / ((readLatVals files c.name).length : ℚ)) ∧
    (writeLatVals files c.name ≠ [] →
      c.write.lat_us
        = (writeLatVals files c.name).sum / ((writeLatVals files c.name).length : ℚ)) := by
  obtain ⟨hceq, hne⟩ := mem_aggregate_eq files c hc
  obtain ⟨h1, h2, h3, h4, h5, h6, h7, h8⟩ :=
    foldl_addCase_fields (contributions files c.name) ({} : AggEntry)
  rw [show ({} : AggEntry).read_iops = (0:ℚ) from rfl, zero_add] at h1
  rw [show ({} : AggEntry).read_bw = (0:ℚ) from rfl, zero_add] at h2
  rw [show ({} : AggEntry).read_lat_sum = (0:ℚ) from rfl, zero_add] at h3
  rw [show ({} : AggEntry).read_cnt = (0:ℕ) from rfl, Nat.zero_add] at h4
  rw [show ({} : AggEntry).write_iops = (0:ℚ) from rfl, zero_add] at h5
  rw [show ({} : AggEntry).write_bw = (0:ℚ) from rfl, zero_add] at h6
  rw [show ({} : AggEntry).write_lat_sum = (0:ℚ) from rfl, zero_add] at h7
  rw [show ({} : AggEntry).write_cnt = (0:ℕ) from rfl, Nat.zero_add] at h8
  have hri : c.read.iops
      = ((contributions files c.name).foldl addCase {}).read_iops := by
    conv_lhs => rw [hceq]
    rfl
  have hrb : c.read.bw_MBps
      = ((contributions files c.name).foldl addCase {}).read_bw := by
    conv_lhs => rw [hceq]
    rfl
  have hwi : c.write.iops
      = ((contributions files c.name).foldl addCase {}).write_iops := by
    conv_lhs => rw [hceq]
    rfl
  have hwb : c.write.bw_MBps
      = ((contributions files c.name).foldl addCase {}).write_bw := by
    conv_lhs => rw [hceq]
    rfl
  have hrl : c.read.lat_us
      = ((contributions files c.name).foldl addCase {}).read_lat_sum /
        (((if ((contributions files c.name).foldl addCase {}).read_cnt = 0 then 1
           else ((contributions files c.name).foldl addCase {}).read_cnt : ℕ)) : ℚ) := by
    conv_lhs => rw [hceq]
    rfl
  have hwl : c.write.lat_us
      = ((contributions files c.name).foldl addCase {}).write_lat_sum /
        (((if ((contributions files c.name).foldl addCase {}).write_cnt = 0 then 1
           else ((contributions files c.name).foldl addCase {}).write_cnt : ℕ)) : ℚ) := by
    conv_lhs => rw [hceq]
    rfl
  refine ⟨?_, ?_, ?_, ?_, ?_, ?_⟩
  · rw [hri, h1]; rfl
  · rw [hrb, h2]; rfl
  · rw [hwi, h5]; rfl
  · rw [hwb, h6]; rfl
  · intro hv
    have hlen : (readLatVals files c.name).length ≠ 0 := by
      simpa [List.length_eq_zero] using hv
    have hunf : readLatVals files c.name
        = List.filterMap (fun x => x.read.lat_us) (contributions files c.name) := rfl
    rw [hrl, h3, h4, ← hunf, if_neg hlen]
  · intro hv
    have hlen : (writeLatVals files c.name).length ≠ 0 := by
      simpa [List.length_eq_zero] using hv
    have hunf : writeLatVals files c.name
        = List.filterMap (fun x => x.write.lat_us) (contributions files c.name) := rfl
    rw [hwl, h7, h8, ← hunf, if_neg hlen]

theorem stepCase_nameless (st : List (String × AggEntry)) (c : CaseIn)
    (h : caseKey c = none) : stepCase st c = st := by
  unfold stepCase
  rw [h]

theorem foldl_stepCase_filter_named :
    ∀ (cs : List CaseIn) (st : List (String × AggEntry)),
      (cs.filter (fun c => (caseKey c).isSome)).foldl stepCase st = cs.foldl stepCase st := by
  intro cs
  induction cs with
  | nil => intro st; rfl
  | cons c cs ih =>
    intro st
    rw [List.filter_cons, List.foldl_cons]
    rcases h : caseKey c with _ | n
    · rw [if_neg (by simp [h]), stepCase_nameless st c h]
      exact ih st
    · rw [if_pos (by simp [h]), List.foldl_cons]
      exact ih (stepCase st c)

theorem foldl_stepFile_stripNameless :
    ∀ (files : List (Option (List CaseIn))) (st : List (String × AggEntry)),
      (stripNameless files).foldl stepFile st = files.foldl stepFile st := by
  intro files
  induction files with
  | nil => intro st; rfl
  | cons f fs ih =>
    intro st
    cases f with
    | none =>
      rw [show stripNameless (none :: fs) = none :: stripNameless fs from rfl]
      rw [List.foldl_cons, List.foldl_cons]
      exact ih st
    | some cs =>
      rw [show stripNameless (some cs :: fs)
            = some (cs.filter (fun c => (caseKey c).isSome)) :: stripNameless fs from rfl]
      rw [List.foldl_cons, List.foldl_cons]
      rw [show stepFile st (some (cs.filter (fun c => (caseKey c).isSome)))
            = (cs.filter (fun c => (caseKey c).isSome)).foldl stepCase st from rfl]
      rw [show stepFile st (some cs) = cs.foldl stepCase st from rfl]
      rw [foldl_stepCase_filter_named cs st]
      exact ih (cs.foldl stepCase st)

theorem aggregate_stripNameless (files : List (Option (List CaseIn))) :
    aggregate_cases (stripNameless files) = aggregate_cases files := by
  unfold aggregate_cases
  rw [foldl_stepFile_stripNameless files []]

/-- C10: aggregation is insensitive to dropping every record that lacks a
non-empty name (such records are skipped without affecting other cases), and
a direction to which zero records contribute a lat_us key has aggregate
lat_us exactly 0: the divisor is clamped to 1, so no division by zero ever
arises. -/
theorem C10_latency_totality (files : List (Option (List CaseIn))) :
    aggregate_cases (stripNameless files) = aggregate_cases files ∧
    ∀ c ∈ aggregate_cases files,
      (readLatVals files c.name = [] → c.read.lat_us = 0) ∧
      (writeLatVals files c.name = [] → c.write.lat_us = 0) := by
  refine ⟨aggregate_stripNameless files, ?_⟩
  intro c hc
  obtain ⟨hceq, hne⟩ := mem_aggregate_eq files c hc
  obtain ⟨h1, h2, h3, h4, h5, h6, h7, h8⟩ :=
    foldl_addCase_fields (contributions files c.name) ({} : AggEntry)
  rw [show ({} : AggEntry).read_lat_sum = (0:ℚ) from rfl, zero_add] at h3
  rw [show ({} : AggEntry).write_lat_sum = (0:ℚ) from rfl, zero_add] at h7
  constructor
  · intro hv
    have hunf : readLatVals files c.name
        = List.filterMap (fun x => x.read.lat_us) (contributions files c.name) := rfl
    rw [hunf] at hv
    have hrl : c.read.lat_us
        = ((contributions files c.name).foldl addCase {}).read_lat_sum /
          (((if ((contributions files c.name).foldl addCase {}).read_cnt = 0 then 1
             else ((contributions files c.name).foldl addCase {}).read_cnt : ℕ)) : ℚ) := by
      conv_lhs => rw [hceq]
      rfl
    rw [hrl, h3, hv, List.sum_nil, zero_div]
  · intro hv
    have hunf : writeLatVals files c.name
        = List.filterMap (fun x => x.write.lat_us) (contributions files c.name) := rfl
    rw [hunf] at hv
    have hwl : c.write.lat_us
        = ((contributions files c.name).foldl addCase {}).write_lat_sum /
          (((if ((contributions files c.name).foldl addCase {}).write_cnt = 0 then 1
             else ((contributions files c.name).foldl addCase {}).write_cnt : ℕ)) : ℚ) := by
      conv_lhs => rw [hceq]
      rfl
    rw [hwl, h7, hv, List.sum_nil, zero_div]

theorem agg_example_eval : aggregate_cases aggExampleFiles = [aggXOut] := rfl

theorem agg_example2_eval : aggregate_cases aggExampleFiles2 = [aggYOut] := rfl

theorem C3_aggregate_sums_witness :
    aggXOut ∈ aggregate_cases aggExampleFiles ∧
    aggXOut.read.iops = readIopsSum aggExampleFiles aggXOut.name ∧
    readIopsSum aggExampleFiles aggXOut.name = 200 ∧
    aggXOut.write.lat_us
      = (writeLatVals aggExampleFiles aggXOut.name).sum
        / ((writeLatVals aggExampleFiles aggXOut.name).length : ℚ) ∧
    writeLatVals aggExampleFiles aggXOut.name = [50] ∧
    aggXOut.write.lat_us = 50 := by
  have hmem : aggXOut ∈ aggregate_cases aggExampleFiles := by
    rw [agg_example_eval]
    exact List.mem_singleton.mpr rfl
  have h := C3_aggregate_sums aggExampleFiles aggXOut hmem
  have hvals : writeLatVals aggExampleFiles aggXOut.name = [(50 : ℚ)] := rfl
  have hsum : readIopsSum aggExampleFiles aggXOut.name = 200 := by
    rw [show readIopsSum aggExampleFiles aggXOut.name = ([100, 100] : List ℚ).sum from rfl]
    simp only [List.sum_cons, List.sum_nil]
    norm_num
  have h50 := h.2.2.2.2.2 (by rw [hvals]; exact List.cons_ne_nil _ _)
  have hlat : aggXOut.write.lat_us = 50 := by
    rw [h50, hvals]
    simp only [List.sum_cons, List.sum_nil, List.length_cons, List.length_nil]
    norm_num
  exact ⟨hmem, h.1, hsum, h50, hvals, hlat⟩

theorem C10_latency_totality_witness :
    aggregate_cases (stripNameless aggExampleFiles2) = aggregate_cases aggExampleFiles2 ∧
    aggYOut ∈ aggregate_cases aggExampleFiles2 ∧
    readLatVals aggExampleFiles2 aggYOut.name = [] ∧
    aggYOut.read.lat_us = 0 := by
  have h := C10_latency_totality aggExampleFiles2
  have hmem : aggYOut ∈ aggregate_cases aggExampleFiles2 := by
    rw [agg_example2_eval]
    exact List.mem_singleton.mpr rfl
  exact ⟨h.1, hmem, rfl, (h.2 aggYOut hmem).1 rfl⟩

